import Mathlib

/-!
Verification development for the rust-tracer repository.

The development has two parts.

Namespace `RT` embeds the geometry and shading pipeline (tuple.rs, matrix.rs,
ray.rs, material.rs, light.rs, color.rs, the primitive shapes, arena.rs,
intersection.rs and world.rs).  Machine floats are modelled by real numbers:
all f64 arithmetic is translated to exact arithmetic on `Real`, and f64 sqrt
and powf become `Real.sqrt` and real exponentiation.  The `Cube` and `Group`
shape variants are not embedded here: their intersection routines are built on
the bounding-box slab test, which manipulates IEEE infinities and is therefore
embedded in the `FP` namespace instead.  No claim exercises them through the
shading pipeline.

Namespace `FP` embeds the parts of the code whose behaviour depends on the
IEEE special values (bounds.rs and the group/arena code of C5, C6 and C9):
its number type `FP.Fl` is a rational number together with the two signed
infinities and NaN, with the operations the embedded code uses given their
IEEE f64 semantics (exact rational arithmetic standing in for rounded
arithmetic), so that every definition in it is executable and claims can be
settled by evaluation.
-/

namespace RT

/-- EPSILON from lib.rs. -/
noncomputable def EPSILON : ℝ := 0.00001

/-- MAX_REFLECTION_RECURSION from lib.rs. -/
def MAX_REFLECTION_RECURSION : ℕ := 5

/-- Function approx_eq from lib.rs, restricted to finite values: the
is_infinite clause of the source cannot fire in this real-valued model. -/
noncomputable def approx_eq (a b : ℝ) : Prop := |a - b| < EPSILON

/-- Struct Tuple from tuple.rs: x, y, z and the homogeneous w component. -/
structure Tuple where
  x : ℝ
  y : ℝ
  z : ℝ
  w : ℝ

namespace Tuple

/-- Tuple::point. -/
noncomputable def point (x y z : ℝ) : Tuple := ⟨x, y, z, 1⟩

/-- Tuple::vector. -/
noncomputable def vector (x y z : ℝ) : Tuple := ⟨x, y, z, 0⟩

/-- Add for Tuple. -/
noncomputable def add (a b : Tuple) : Tuple := ⟨a.x + b.x, a.y + b.y, a.z + b.z, a.w + b.w⟩

/-- Sub for Tuple. -/
noncomputable def sub (a b : Tuple) : Tuple := ⟨a.x - b.x, a.y - b.y, a.z - b.z, a.w - b.w⟩

/-- Neg for Tuple. -/
noncomputable def neg (a : Tuple) : Tuple := ⟨-a.x, -a.y, -a.z, -a.w⟩

/-- Mul of a Tuple by an f64 scalar. -/
noncomputable def smul (a : Tuple) (s : ℝ) : Tuple := ⟨a.x * s, a.y * s, a.z * s, a.w * s⟩

/-- Tuple::dot. -/
noncomputable def dot (a b : Tuple) : ℝ := a.x * b.x + a.y * b.y + a.z * b.z + a.w * b.w

/-- Tuple::magnitude. -/
noncomputable def magnitude (a : Tuple) : ℝ := Real.sqrt (a.x * a.x + a.y * a.y + a.z * a.z)

/-- Tuple::normalize (every component, including w, is divided by the
magnitude, as in the source). -/
noncomputable def normalize (a : Tuple) : Tuple :=
  ⟨a.x / a.magnitude, a.y / a.magnitude, a.z / a.magnitude, a.w / a.magnitude⟩

/-- Tuple::reflect: self - normal * 2. * self.dot(normal). -/
noncomputable def reflect (a normal : Tuple) : Tuple :=
  a.sub ((normal.smul 2).smul (a.dot normal))

end Tuple

/-- Struct Color from color.rs. -/
structure Color where
  r : ℝ
  g : ℝ
  b : ℝ

namespace Color

/-- Constant BLACK. -/
noncomputable def BLACK : Color := ⟨0, 0, 0⟩

/-- Constant WHITE. -/
noncomputable def WHITE : Color := ⟨1, 1, 1⟩

/-- Add for Color. -/
noncomputable def add (a b : Color) : Color := ⟨a.r + b.r, a.g + b.g, a.b + b.b⟩

/-- Mul of two colors (componentwise, the Hadamard product of color.rs). -/
noncomputable def mulC (a b : Color) : Color := ⟨a.r * b.r, a.g * b.g, a.b * b.b⟩

/-- Mul of a color by an f64 scalar. -/
noncomputable def smul (a : Color) (s : ℝ) : Color := ⟨a.r * s, a.g * s, a.b * s⟩

end Color

/-- Struct Matrix from matrix.rs: a 4 by 4 backing store addressed by row and
column, together with the logical size (2, 3 or 4).  Entries outside the
backing store read as 0, matching the zero-filled rows of the source. -/
structure Matrix where
  size : ℕ
  data : ℕ → ℕ → ℝ

namespace Matrix

/-- Matrix::empty. -/
noncomputable def empty (size : ℕ) : Matrix := ⟨size, fun _ _ => 0⟩

/-- Submatrix entry selection of Matrix::submatrix: skip the omitted row and
column, exactly as the source index arithmetic does. -/
noncomputable def subEntry (e : ℕ → ℕ → ℝ) (omitRow omitCol r c : ℕ) : ℝ :=
  e (if r < omitRow then r else r + 1) (if c < omitCol then c else c + 1)

/-- Matrix::determinant for a given size over an entry function: the 2 by 2
base case, and cofactor expansion along row 0 otherwise (with the
minor/cofactor recursion of the source inlined so that the recursion is
structural in the size).  Sizes 0 and 1 are never built by the program; the
fold of the source returns 0 for them. -/
noncomputable def detN : ℕ → (ℕ → ℕ → ℝ) → ℝ
  | 2, e => e 0 0 * e 1 1 - e 0 1 * e 1 0
  | 0, _ => 0
  | n + 1, e =>
      (List.range (n + 1)).foldl
        (fun acc c =>
          acc + e 0 c *
            (if (0 + c) % 2 = 0 then detN n (subEntry e 0 c)
             else -detN n (subEntry e 0 c))) 0

/-- Matrix::minor: determinant of the submatrix. -/
noncomputable def minorN (size : ℕ) (e : ℕ → ℕ → ℝ) (r c : ℕ) : ℝ :=
  detN (size - 1) (subEntry e r c)

/-- Matrix::cofactor: the minor, negated on odd row+column. -/
noncomputable def cofactorN (size : ℕ) (e : ℕ → ℕ → ℝ) (r c : ℕ) : ℝ :=
  if (r + c) % 2 = 0 then minorN size e r c else -minorN size e r c

/-- Matrix::determinant. -/
noncomputable def determinant (m : Matrix) : ℝ := detN m.size m.data

/-- Matrix::is_invertible. -/
noncomputable def is_invertible (m : Matrix) : Prop := determinant m ≠ 0

/-- Matrix::cofactor on a matrix value. -/
noncomputable def cofactor (m : Matrix) (r c : ℕ) : ℝ := cofactorN m.size m.data r c

open Classical in
/-- Matrix::inverse: None for a zero determinant, otherwise the transposed
cofactors divided by the determinant (entries outside the size are the zeros
of Matrix::empty, as in the source). -/
noncomputable def inverse (m : Matrix) : Option Matrix :=
  if determinant m = 0 then none
  else some ⟨m.size, fun r c =>
    if r < m.size ∧ c < m.size then cofactorN m.size m.data c r / determinant m
    else 0⟩

/-- Matrix::transpose. -/
noncomputable def transpose (m : Matrix) : Matrix :=
  ⟨m.size, fun r c => if r < m.size ∧ c < m.size then m.data c r else 0⟩

/-- Mul of two matrices (row-by-column sums over the size). -/
noncomputable def mul (a b : Matrix) : Matrix :=
  ⟨a.size, fun r c =>
    if r < a.size ∧ c < a.size then
      (List.range a.size).foldl (fun acc i => acc + a.data r i * b.data i c) 0
    else 0⟩

/-- Mul of a Matrix by a Tuple (matrix.rs uses rows 0..3 of a size-4 matrix). -/
noncomputable def mulTuple (m : Matrix) (t : Tuple) : Tuple :=
  ⟨m.data 0 0 * t.x + m.data 0 1 * t.y + m.data 0 2 * t.z + m.data 0 3 * t.w,
   m.data 1 0 * t.x + m.data 1 1 * t.y + m.data 1 2 * t.z + m.data 1 3 * t.w,
   m.data 2 0 * t.x + m.data 2 1 * t.y + m.data 2 2 * t.z + m.data 2 3 * t.w,
   m.data 3 0 * t.x + m.data 3 1 * t.y + m.data 3 2 * t.z + m.data 3 3 * t.w⟩

/-- Constant IDENTITY_MATRIX. -/
noncomputable def IDENTITY_MATRIX : Matrix :=
  ⟨4, fun r c => if r = c then 1 else 0⟩

/-- Matrix equality as implemented by PartialEq for Matrix: same size and
approximately equal entries inside the size. -/
noncomputable def matrixEq (a b : Matrix) : Prop :=
  a.size = b.size ∧ ∀ r < a.size, ∀ c < a.size, approx_eq (a.data r c) (b.data r c)

/-- Matrix::translation from transform.rs. -/
noncomputable def translation (x y z : ℝ) : Matrix :=
  ⟨4, fun r c =>
    if r = c then 1
    else if c = 3 then (if r = 0 then x else if r = 1 then y else if r = 2 then z else 0)
    else 0⟩

/-- Matrix::scaling from transform.rs. -/
noncomputable def scaling (x y z : ℝ) : Matrix :=
  ⟨4, fun r c =>
    if r = 0 ∧ c = 0 then x
    else if r = 1 ∧ c = 1 then y
    else if r = 2 ∧ c = 2 then z
    else if r = 3 ∧ c = 3 then 1
    else 0⟩

end Matrix

/-- Struct Ray from ray.rs. -/
structure Ray where
  origin : Tuple
  direction : Tuple

namespace Ray

/-- Ray::position. -/
noncomputable def position (r : Ray) (t : ℝ) : Tuple := r.origin.add (r.direction.smul t)

/-- Mul of a Ray by a Matrix (ray.rs multiplies origin and direction; a Tuple
times a Matrix is the Matrix applied to the Tuple). -/
noncomputable def mulMatrix (r : Ray) (m : Matrix) : Ray :=
  ⟨m.mulTuple r.origin, m.mulTuple r.direction⟩

end Ray

end RT

namespace RT

/-- Enum Pattern from patterns.rs.  The pattern color functions are an
external collaborator in the specification; only the Solid variant (the one
the embedded scenes use) is carried, and color_at_object returns its color. -/
inductive Pattern where
  | solid (c : Color)


/-- Struct Material.  The snapshot of material.rs under src lacks the
transparency and refractive_index fields that world.rs and intersection.rs
read.  Modelled from the spec: "Material: ambient/diffuse/specular/shininess/
reflective/transparency/refractive-index floats plus an opaque
pattern-color-function reference"; their defaults make a material opaque in
vacuum (transparency 0, refractive index 1), matching the world.rs test that
expects a default sphere to refract nothing. -/
structure Material where
  pattern : Pattern
  ambient : ℝ
  diffuse : ℝ
  specular : ℝ
  shininess : ℝ
  reflective : ℝ
  transparency : ℝ
  refractive_index : ℝ

/-- Constant DEFAULT_MATERIAL, extended with the two modelled fields. -/
noncomputable def DEFAULT_MATERIAL : Material :=
  ⟨.solid Color.WHITE, 0.1, 0.9, 0.9, 200, 0, 0, 1⟩

/-- Struct PointLight from light.rs. -/
structure PointLight where
  position : Tuple
  intensity : Color

/-- The Shape enum of shapes/mod.rs, restricted to the variants the shading
pipeline claims exercise: Sphere, Plane, Cylinder and Cone, each carrying its
transform, material and optional parent id as in the source structs.  The
Cube and Group variants are embedded in the FP namespace (their intersection
logic lives on the IEEE bounding-box slab test). -/
inductive Shape where
  | sphere (transform : Matrix) (material : Material) (parentId : Option ℕ)
  | plane (transform : Matrix) (material : Material) (parentId : Option ℕ)
  | cylinder (minimum maximum : ℝ) (closed : Bool) (transform : Matrix)
      (material : Material) (parentId : Option ℕ)
  | cone (minimum maximum : ℝ) (closed : Bool) (transform : Matrix)
      (material : Material) (parentId : Option ℕ)

/-- Pattern::color_at_object for the Solid variant: the stored color,
independent of shape and point. -/
noncomputable def Pattern.color_at_object (p : Pattern) (_object : Shape)
    (_point : Tuple) : Color :=
  match p with
  | .solid c => c

namespace Shape

/-- Shape::transform dispatch. -/
noncomputable def transform : Shape → Matrix
  | .sphere t _ _ => t
  | .plane t _ _ => t
  | .cylinder _ _ _ t _ _ => t
  | .cone _ _ _ t _ _ => t

/-- Shape::material dispatch. -/
noncomputable def material : Shape → Material
  | .sphere _ m _ => m
  | .plane _ m _ => m
  | .cylinder _ _ _ _ m _ => m
  | .cone _ _ _ _ m _ => m

/-- The parent id carried by every variant. -/
def parentId : Shape → Option ℕ
  | .sphere _ _ p => p
  | .plane _ _ p => p
  | .cylinder _ _ _ _ _ p => p
  | .cone _ _ _ _ _ p => p

end Shape

open Classical

/-- Sphere::local_intersect from shapes/sphere.rs. -/
noncomputable def sphereLocalIntersect (r : Ray) : List ℝ :=
  let sphere_to_ray := r.origin.sub (Tuple.point 0 0 0)
  let a := r.direction.dot r.direction
  let b := 2 * r.direction.dot sphere_to_ray
  let c := sphere_to_ray.dot sphere_to_ray - 1
  let discriminant := b * b - 4 * a * c
  if discriminant < 0 then []
  else [(-b - Real.sqrt discriminant) / (2 * a), (-b + Real.sqrt discriminant) / (2 * a)]

/-- Sphere::local_normal_at. -/
noncomputable def sphereLocalNormalAt (p : Tuple) : Tuple := p.sub (Tuple.point 0 0 0)

/-- Plane::local_intersect from shapes/plane.rs. -/
noncomputable def planeLocalIntersect (r : Ray) : List ℝ :=
  if |r.direction.y| < EPSILON then []
  else [-r.origin.y / r.direction.y]

/-- Plane::local_normal_at. -/
noncomputable def planeLocalNormalAt (_p : Tuple) : Tuple := Tuple.vector 0 1 0

/-- Cylinder::check_cap from shapes/cylinder.rs. -/
noncomputable def cylinderCheckCap (r : Ray) (t : ℝ) : Prop :=
  let x := r.origin.x + t * r.direction.x
  let z := r.origin.z + t * r.direction.z
  x * x + z * z ≤ 1

/-- Cylinder::intersect_caps: the two cap candidates appended to xs. -/
noncomputable def cylinderIntersectCaps (minimum maximum : ℝ) (closed : Bool)
    (r : Ray) (xs : List ℝ) : List ℝ :=
  if ¬closed ∨ |r.direction.y| < EPSILON then xs
  else
    let t0 := (minimum - r.origin.y) / r.direction.y
    let xs := if cylinderCheckCap r t0 then xs ++ [t0] else xs
    let t1 := (maximum - r.origin.y) / r.direction.y
    if cylinderCheckCap r t1 then xs ++ [t1] else xs

/-- Cylinder::local_intersect. -/
noncomputable def cylinderLocalIntersect (minimum maximum : ℝ) (closed : Bool)
    (r : Ray) : List ℝ :=
  let a := r.direction.x ^ 2 + r.direction.z ^ 2
  let xs :=
    if |a| ≥ EPSILON then
      let b := 2 * r.origin.x * r.direction.x + 2 * r.origin.z * r.direction.z
      let c := r.origin.x ^ 2 + r.origin.z ^ 2 - 1
      let discriminant := b ^ 2 - 4 * a * c
      if discriminant ≥ 0 then
        let t0 := (-b - Real.sqrt discriminant) / (2 * a)
        let t1 := (-b + Real.sqrt discriminant) / (2 * a)
        let t0' := if t0 > t1 then t1 else t0
        let t1' := if t0 > t1 then t0 else t1
        let y0 := r.origin.y + t0' * r.direction.y
        let xs := if minimum < y0 ∧ y0 < maximum then [t0'] else []
        let y1 := r.origin.y + t1' * r.direction.y
        if minimum < y1 ∧ y1 < maximum then xs ++ [t1'] else xs
      else []
    else []
  cylinderIntersectCaps minimum maximum closed r xs

/-- Cylinder::local_normal_at from shapes/cylinder.rs: the cap normals within
EPSILON of a closed end (for points inside the unit cap disk), otherwise the
radial vector. -/
noncomputable def cylinderLocalNormalAt (minimum maximum : ℝ) (p : Tuple) : Tuple :=
  let dist := p.x ^ 2 + p.z ^ 2
  if dist < 1 ∧ p.y ≥ maximum - EPSILON then Tuple.vector 0 1 0
  else if dist < 1 ∧ p.y ≤ minimum + EPSILON then Tuple.vector 0 (-1) 0
  else Tuple.vector p.x 0 p.z

/-- Cone::check_cap from shapes/cone.rs (cap radius |y|). -/
noncomputable def coneCheckCap (r : Ray) (t radius : ℝ) : Prop :=
  let x := r.origin.x + t * r.direction.x
  let z := r.origin.z + t * r.direction.z
  x * x + z * z ≤ radius * radius

/-- Cone::intersect_caps. -/
noncomputable def coneIntersectCaps (minimum maximum : ℝ) (closed : Bool)
    (r : Ray) (xs : List ℝ) : List ℝ :=
  if ¬closed ∨ |r.direction.y| < EPSILON then xs
  else
    let t0 := (minimum - r.origin.y) / r.direction.y
    let xs := if coneCheckCap r t0 minimum then xs ++ [t0] else xs
    let t1 := (maximum - r.origin.y) / r.direction.y
    if coneCheckCap r t1 maximum then xs ++ [t1] else xs

/-- Cone::local_intersect. -/
noncomputable def coneLocalIntersect (minimum maximum : ℝ) (closed : Bool)
    (r : Ray) : List ℝ :=
  let a := r.direction.x ^ 2 - r.direction.y ^ 2 + r.direction.z ^ 2
  let b := 2 * r.origin.x * r.direction.x - 2 * r.origin.y * r.direction.y
    + 2 * r.origin.z * r.direction.z
  let c := r.origin.x ^ 2 - r.origin.y ^ 2 + r.origin.z ^ 2
  let xs :=
    if |a| ≥ EPSILON then
      let discriminant := b ^ 2 - 4 * a * c
      if discriminant ≥ 0 then
        let t0 := (-b - Real.sqrt discriminant) / (2 * a)
        let t1 := (-b + Real.sqrt discriminant) / (2 * a)
        let t0' := if t0 > t1 then t1 else t0
        let t1' := if t0 > t1 then t0 else t1
        let y0 := r.origin.y + t0' * r.direction.y
        let xs := if minimum < y0 ∧ y0 < maximum then [t0'] else []
        let y1 := r.origin.y + t1' * r.direction.y
        if minimum < y1 ∧ y1 < maximum then xs ++ [t1'] else xs
      else []
    else [-c / (b * 2)]
  coneIntersectCaps minimum maximum closed r xs

/-- Cone::local_normal_at from shapes/cone.rs (lines 115-119): the radial
vector whose y component is the cone slope sqrt(x^2+z^2), negated above the
apex.  Note the source has no end-cap branch here. -/
noncomputable def coneLocalNormalAt (p : Tuple) : Tuple :=
  let y := Real.sqrt (p.x ^ 2 + p.z ^ 2)
  let y := if p.y > 0 then -y else y
  Tuple.vector p.x y p.z

/-- Dispatch of local_normal_at over the embedded Shape variants. -/
noncomputable def Shape.local_normal_at : Shape → Tuple → Tuple
  | .sphere _ _ _, p => sphereLocalNormalAt p
  | .plane _ _ _, p => planeLocalNormalAt p
  | .cylinder mn mx _ _ _ _, p => cylinderLocalNormalAt mn mx p
  | .cone _ _ _ _ _ _, p => coneLocalNormalAt p

/-- Dispatch of local_intersect over the embedded Shape variants. -/
noncomputable def Shape.local_intersect : Shape → Ray → List ℝ
  | .sphere _ _ _, r => sphereLocalIntersect r
  | .plane _ _ _, r => planeLocalIntersect r
  | .cylinder mn mx cl _ _ _, r => cylinderLocalIntersect mn mx cl r
  | .cone mn mx cl _ _ _, r => coneLocalIntersect mn mx cl r

/-- Struct Arena from arena.rs: a growable vector of optional shapes. -/
structure Arena where
  objects : List (Option Shape)

namespace Arena

/-- Arena::new. -/
def new : Arena := ⟨[]⟩

/-- Arena::add: push Some(object), returning the new id and arena. -/
def add (a : Arena) (object : Shape) : ℕ × Arena :=
  (a.objects.length, ⟨a.objects ++ [some object]⟩)

/-- Arena::get.  The source indexes and unwraps, panicking on an id that is
out of range or an unfilled slot; both failures are none here. -/
def get? (a : Arena) (id : ℕ) : Option Shape :=
  match a.objects.get? id with
  | some (some s) => some s
  | _ => none

end Arena

/-- Shape::get_parent from shapes/mod.rs: parent_id mapped through the arena
(an arena panic is none). -/
noncomputable def Shape.get_parent (a : Arena) (s : Shape) : Option (Option Shape) :=
  match s.parentId with
  | none => some none
  | some id => (a.get? id).map some

/-- Shape::world_to_object: recurse into the parent first, then apply the
inverse of the own transform.  The recursion of the source follows parent
references; fuel bounds the chain length (an acyclic chain in an arena of n
objects has length at most n), and an unwrap panic (missing parent, singular
transform) is none. -/
noncomputable def Shape.world_to_object : ℕ → Arena → Shape → Tuple → Option Tuple
  | 0, _, _, _ => none
  | fuel + 1, a, s, point => do
    let point ←
      match s.parentId with
      | none => some point
      | some id => do
        let parent ← a.get? id
        Shape.world_to_object fuel a parent point
    let inv ← s.transform.inverse
    some (inv.mulTuple point)

/-- Shape::normal_to_world: inverse-transpose the normal, zero w, normalize,
then recurse into the parent. -/
noncomputable def Shape.normal_to_world : ℕ → Arena → Shape → Tuple → Option Tuple
  | 0, _, _, _ => none
  | fuel + 1, a, s, normal => do
    let inv ← s.transform.inverse
    let n := inv.transpose.mulTuple normal
    let n : Tuple := ⟨n.x, n.y, n.z, 0⟩
    let n := n.normalize
    match s.parentId with
    | none => some n
    | some id => do
      let parent ← a.get? id
      Shape.normal_to_world fuel a parent n

/-- Shape::normal_at: world point to local space, local normal, back to world
space.  The Group arm of the source dispatch is a panic and the Group variant
is not embedded here. -/
noncomputable def Shape.normal_at (a : Arena) (s : Shape) (p : Tuple) : Option Tuple := do
  let fuel := a.objects.length + 1
  let local_point ← Shape.world_to_object fuel a s p
  let local_normal := s.local_normal_at local_point
  Shape.normal_to_world fuel a s local_normal

/-- Shape::intersect: transform the ray by the inverse transform (none models
the unwrap panic on a singular transform) and wrap each local root in an
Intersection.  The source stores a reference to the shape in each
Intersection; references are modelled by arena ids, so the id of the shape is
passed alongside (world.rs only intersects shapes fetched from the arena). -/
noncomputable def Shape.intersect (selfId : ℕ) (s : Shape) (r : Ray) :
    Option (List (ℝ × ℕ)) := do
  let inv ← s.transform.inverse
  let local_ray := r.mulMatrix inv
  some ((s.local_intersect local_ray).map fun t => (t, selfId))

end RT

namespace RT

open Classical

/-- Struct Intersection from intersection.rs: a ray parameter and the
intersected shape.  The source stores a shape reference; the snapshot of
world.rs passes the arena to prepare_computations and resolves shapes through
it, and the specification data model gives an Intersection as (t, shape id),
so the reference is modelled by the arena id. -/
structure Intersection where
  t : ℝ
  objectId : ℕ

namespace Intersection

/-- Value f64::MAX, the initial minimum of Intersection::hit. -/
noncomputable def f64MAX : ℝ := 2 ^ (1024 : ℕ) - 2 ^ (971 : ℕ)

/-- Loop of Intersection::hit: keep the first intersection seen whose t is
non-negative and strictly below the running minimum. -/
noncomputable def hitLoop : List Intersection → ℝ → Option Intersection → Option Intersection
  | [], _, response => response
  | i :: rest, min, response =>
      if i.t ≥ 0 ∧ i.t < min then hitLoop rest i.t (some i)
      else hitLoop rest min response

/-- Intersection::hit from intersection.rs (lines 30-40): the running minimum
starts at f64::MAX. -/
noncomputable def hit (xs : List Intersection) : Option Intersection :=
  hitLoop xs f64MAX none

/-- Modelled from the spec: Intersection::sort is called by world.rs and
group.rs but its definition is not under src; the spec says "Multiple
intersections for one ray are kept as an ordered sequence sorted ascending by
t".  A stable insertion sort ascending by t. -/
noncomputable def insertByT (i : Intersection) : List Intersection → List Intersection
  | [] => [i]
  | j :: rest => if i.t < j.t then i :: j :: rest else j :: insertByT i rest

/-- Modelled from the spec: ascending stable sort by t (see insertByT). -/
noncomputable def sort : List Intersection → List Intersection
  | [] => []
  | i :: rest => insertByT i (sort rest)

end Intersection

/-- Toggle of the container stack in prepare_computations: remove the first
occurrence of the shape if present (Vec::remove at its position), else push. -/
def containersToggle (cs : List ℕ) (id : ℕ) : List ℕ :=
  if cs.contains id then cs.erase id else cs ++ [id]

/-- Refractive index of the top of the container stack: 1.0 when empty, else
the refractive index of the material of the last pushed shape (an arena
failure on the stored id is none, modelling the unwrap panic). -/
noncomputable def refrOfTop (a : Arena) (cs : List ℕ) : Option ℝ :=
  match cs.getLast? with
  | none => some 1
  | some id => (a.get? id).map fun s => s.material.refractive_index

/-- The n1/n2 walk of prepare_computations (intersection.rs lines 55-83):
walk the intersection list keeping the container stack; at the intersection
being prepared, n1 is the index of the stack top before the toggle and n2 the
index of the top after it, and the walk stops; if the walk ends without
meeting it, both keep their initial value 1. -/
noncomputable def n1n2Go (a : Arena) (self : Intersection) :
    List Intersection → List ℕ → Option (ℝ × ℝ)
  | [], _ => some (1, 1)
  | i :: rest, cs =>
      if i = self then do
        let n1 ← refrOfTop a cs
        let cs := containersToggle cs i.objectId
        let n2 ← refrOfTop a cs
        some (n1, n2)
      else n1n2Go a self rest (containersToggle cs i.objectId)

/-- Entry point of the n1/n2 walk with an empty container stack. -/
noncomputable def n1n2 (a : Arena) (self : Intersection) (xs : List Intersection) :
    Option (ℝ × ℝ) :=
  n1n2Go a self xs []

/-- Struct PreparedComputations from intersection.rs. -/
structure PreparedComputations where
  t : ℝ
  object : Shape
  point : Tuple
  under_point : Tuple
  over_point : Tuple
  eyev : Tuple
  normalv : Tuple
  inside : Bool
  reflectv : Tuple
  n1 : ℝ
  n2 : ℝ

/-- Intersection::prepare_computations (intersection.rs lines 42-98, with the
arena-resolving signature world.rs calls): surface point, eye vector, normal
flipped toward the eye with the inside flag, the two epsilon-offset points,
the reflection vector, and the n1/n2 walk.  Any arena or inversion panic of
the source is none. -/
noncomputable def Intersection.prepare_computations (self : Intersection) (a : Arena)
    (r : Ray) (xs : List Intersection) : Option PreparedComputations := do
  let object ← a.get? self.objectId
  let point := r.position self.t
  let eyev := r.direction.neg
  let temp_normalv ← object.normal_at a point
  let inside : Bool := decide (temp_normalv.dot eyev < 0)
  let normalv := if temp_normalv.dot eyev < 0 then temp_normalv.neg else temp_normalv
  let under_point := point.sub (normalv.smul EPSILON)
  let over_point := point.add (normalv.smul EPSILON)
  let reflectv := r.direction.reflect normalv
  let n ← n1n2 a self xs
  some ⟨self.t, object, point, under_point, over_point, eyev, normalv, inside,
    reflectv, n.1, n.2⟩

/-- PreparedComputations::schlick (intersection.rs lines 102-117): cos is the
eye/normal dot product; when n1 > n2 and the squared transmitted sine exceeds
1 the reflectance is 1 (total internal reflection), when n1 > n2 otherwise
cos(theta_t) replaces cos; finally r0 + (1-r0)(1-cos)^5. -/
noncomputable def PreparedComputations.schlick (comps : PreparedComputations) : ℝ :=
  let cos := comps.eyev.dot comps.normalv
  let tail := fun (cos : ℝ) =>
    let r0 := ((comps.n1 - comps.n2) / (comps.n1 + comps.n2)) ^ (2 : ℕ)
    r0 + (1 - r0) * (1 - cos) ^ (5 : ℕ)
  if comps.n1 > comps.n2 then
    let n_ratio := comps.n1 / comps.n2
    let sin2_t := (n_ratio * n_ratio) * (1 - cos * cos)
    if sin2_t > 1 then 1
    else tail (Real.sqrt (1 - sin2_t))
  else tail cos

/-- Material::lightning from material.rs: ambient always, ambient only in
shadow, diffuse by the light/normal cosine, specular by the reflection/eye
cosine raised to the shininess power. -/
noncomputable def Material.lightning (m : Material) (object : Shape) (light : PointLight)
    (point eyev normalv : Tuple) (in_shadow : Bool) : Color :=
  let color := m.pattern.color_at_object object point
  let effective_color := color.mulC light.intensity
  let lightv := (light.position.sub point).normalize
  let light_dot_normal := lightv.dot normalv
  let ambient := effective_color.smul m.ambient
  if in_shadow then ambient
  else
    let diffuse :=
      if light_dot_normal < 0 then Color.BLACK
      else (effective_color.smul m.diffuse).smul light_dot_normal
    let specular :=
      if light_dot_normal < 0 then Color.BLACK
      else
        let reflectv := lightv.neg.reflect normalv
        let reflect_dot_eye := reflectv.dot eyev
        if reflect_dot_eye ≤ 0 then Color.BLACK
        else
          let factor := reflect_dot_eye ^ m.shininess
          (light.intensity.smul m.specular).smul factor
  (ambient.add diffuse).add specular

end RT

namespace RT

open Classical

/-- Struct World from world.rs: one light, the arena and the top-level object
ids. -/
structure World where
  light : PointLight
  arena : Arena
  object_ids : List ℕ

namespace World

/-- Accumulation loop of World::intersect: extend the result with the
intersections of each top-level object in order (an arena or inversion panic
is none). -/
noncomputable def intersectGo (a : Arena) (r : Ray) : List ℕ → Option (List Intersection)
  | [] => some []
  | id :: rest => do
      let s ← a.get? id
      let here ← s.intersect id r
      let xs ← intersectGo a r rest
      some ((here.map fun p => Intersection.mk p.1 p.2) ++ xs)

/-- World::intersect (world.rs lines 69-76): gather and sort ascending. -/
noncomputable def intersect (w : World) (r : Ray) : Option (List Intersection) := do
  let xs ← intersectGo w.arena r w.object_ids
  some (Intersection.sort xs)

/-- World::is_shadowed (world.rs lines 100-111): cast a ray from the point
toward the light; the point is shadowed when the first non-negative hit is
closer than the light. -/
noncomputable def is_shadowed (w : World) (point : Tuple) : Option Bool := do
  let v := w.light.position.sub point
  let distance := v.magnitude
  let direction := v.normalize
  let xs ← w.intersect ⟨point, direction⟩
  match xs.find? (fun i => decide (i.t ≥ 0)) with
  | some i => some (decide (i.t < distance))
  | none => some false

mutual

/-- World::color_at_internal (world.rs lines 56-67): the first non-negative
intersection of the sorted list is shaded; no hit is black. -/
noncomputable def color_at_internal (w : World) (r : Ray) (remaining : ℕ) :
    Option Color := do
  let xs ← w.intersect r
  match xs.find? (fun i => decide (i.t ≥ 0)) with
  | some i => do
      let comps ← i.prepare_computations w.arena r xs
      shade_hit w comps remaining
  | none => some Color.BLACK
termination_by (remaining, 2)

/-- World::shade_hit (world.rs lines 78-98): surface lighting plus reflected
and refracted contributions, blended by the Schlick reflectance when the
material is both reflective and transparent. -/
noncomputable def shade_hit (w : World) (comps : PreparedComputations) (remaining : ℕ) :
    Option Color := do
  let shadowed ← w.is_shadowed comps.over_point
  let surface := comps.object.material.lightning comps.object w.light comps.over_point
    comps.eyev comps.normalv shadowed
  let reflected ← reflected_color w comps remaining
  let refracted ← refracted_color w comps remaining
  let material := comps.object.material
  if material.reflective > 0 ∧ material.transparency > 0 then
    let reflectance := comps.schlick
    some ((surface.add (reflected.smul reflectance)).add (refracted.smul (1 - reflectance)))
  else
    some ((surface.add reflected).add refracted)
termination_by (remaining, 1)

/-- World::reflected_color (world.rs lines 113-125): black when the recursion
budget is exhausted (checked first) or the material is not reflective, else
the color of the reflection ray traced with remaining - 1, scaled. -/
noncomputable def reflected_color (w : World) (comps : PreparedComputations)
    (remaining : ℕ) : Option Color :=
  match remaining with
  | 0 => some Color.BLACK
  | n + 1 =>
      if comps.object.material.reflective = 0 then some Color.BLACK
      else do
        let color ← color_at_internal w ⟨comps.over_point, comps.reflectv⟩ n
        some (color.smul comps.object.material.reflective)
termination_by (remaining, 0)

/-- World::refracted_color (world.rs lines 127-154): black when the budget is
exhausted (checked first), the material is opaque, or under total internal
reflection; else the Snell refraction ray traced from under_point with
remaining - 1, scaled by the transparency. -/
noncomputable def refracted_color (w : World) (comps : PreparedComputations)
    (remaining : ℕ) : Option Color :=
  match remaining with
  | 0 => some Color.BLACK
  | n + 1 =>
      if comps.object.material.transparency = 0 then some Color.BLACK
      else
        let n_ratio := comps.n1 / comps.n2
        let cos_i := comps.eyev.dot comps.normalv
        let sin2_t := (n_ratio * n_ratio) * (1 - cos_i * cos_i)
        if sin2_t > 1 then some Color.BLACK
        else do
          let cos_t := Real.sqrt (1 - sin2_t)
          let direction := (comps.normalv.smul (n_ratio * cos_i - cos_t)).sub
            (comps.eyev.smul n_ratio)
          let color ← color_at_internal w ⟨comps.under_point, direction⟩ n
          some (color.smul comps.object.material.transparency)
termination_by (remaining, 0)

end

/-- World::color_at (world.rs lines 52-54). -/
noncomputable def color_at (w : World) (r : Ray) : Option Color :=
  color_at_internal w r MAX_REFLECTION_RECURSION

end World

end RT

namespace FP

/-- A rational number as an integer numerator over a positive integer
denominator, unreduced.  The rational arithmetic of Mathlib is irreducible to
the kernel, so the float model carries this explicit representation; every
operation below keeps the denominator positive, and value comparisons
cross-multiply.  Exact rational arithmetic stands in for rounded f64
arithmetic. -/
structure Q where
  n : ℤ
  d : ℤ
deriving DecidableEq, Repr

namespace Q

/-- Embed an integer. -/
def ofInt (n : ℤ) : Q := ⟨n, 1⟩

/-- Addition. -/
def add (a b : Q) : Q := ⟨a.n * b.d + b.n * a.d, a.d * b.d⟩

/-- Subtraction. -/
def sub (a b : Q) : Q := ⟨a.n * b.d - b.n * a.d, a.d * b.d⟩

/-- Multiplication. -/
def mul (a b : Q) : Q := ⟨a.n * b.n, a.d * b.d⟩

/-- Division (the caller excludes a zero divisor); the sign is normalized
into the numerator so the denominator stays positive. -/
def div (a b : Q) : Q :=
  let n := a.n * b.d
  let d := a.d * b.n
  if d < 0 then ⟨-n, -d⟩ else ⟨n, d⟩

/-- Negation. -/
def neg (a : Q) : Q := ⟨-a.n, a.d⟩

/-- Absolute value. -/
def qabs (a : Q) : Q := ⟨|a.n|, a.d⟩

/-- Value equality by cross-multiplication. -/
def qeq (a b : Q) : Bool := a.n * b.d = b.n * a.d

/-- Strict order by cross-multiplication (denominators are positive). -/
def blt (a b : Q) : Bool := a.n * b.d < b.n * a.d

/-- Order by cross-multiplication. -/
def ble (a b : Q) : Bool := a.n * b.d ≤ b.n * a.d

/-- Sign test: strictly positive. -/
def isPos (a : Q) : Bool := 0 < a.n

/-- Sign test: strictly negative. -/
def isNeg (a : Q) : Bool := a.n < 0

/-- Zero test. -/
def isZero (a : Q) : Bool := a.n = 0

/-- The value of a Q as a rational number (for statements only). -/
noncomputable def val (a : Q) : ℚ := (a.n : ℚ) / (a.d : ℚ)

end Q

/-- Model of an f64 value for the code that manipulates IEEE special values:
a rational number (exact arithmetic standing in for rounded arithmetic), one
of the two signed infinities, or NaN. -/
inductive Fl where
  | num (q : Q)
  | pinf
  | ninf
  | nan
deriving DecidableEq, Repr

namespace Fl

/-- Addition with IEEE special-value semantics. -/
def add : Fl → Fl → Fl
  | nan, _ => nan
  | _, nan => nan
  | pinf, ninf => nan
  | ninf, pinf => nan
  | pinf, _ => pinf
  | _, pinf => pinf
  | ninf, _ => ninf
  | _, ninf => ninf
  | num a, num b => num (a.add b)

/-- Subtraction with IEEE special-value semantics. -/
def sub : Fl → Fl → Fl
  | nan, _ => nan
  | _, nan => nan
  | pinf, pinf => nan
  | ninf, ninf => nan
  | pinf, _ => pinf
  | ninf, _ => ninf
  | num _, pinf => ninf
  | num _, ninf => pinf
  | num a, num b => num (a.sub b)

/-- Multiplication with IEEE special-value semantics: zero times an infinity
is NaN, otherwise infinities follow the sign rule. -/
def mul : Fl → Fl → Fl
  | nan, _ => nan
  | _, nan => nan
  | pinf, pinf => pinf
  | pinf, ninf => ninf
  | ninf, pinf => ninf
  | ninf, ninf => pinf
  | pinf, num b => if b.isPos then pinf else if b.isNeg then ninf else nan
  | num a, pinf => if a.isPos then pinf else if a.isNeg then ninf else nan
  | ninf, num b => if b.isPos then ninf else if b.isNeg then pinf else nan
  | num a, ninf => if a.isPos then ninf else if a.isNeg then pinf else nan
  | num a, num b => num (a.mul b)

/-- Division with IEEE special-value semantics (the single zero of the model
behaves as +0). -/
def div : Fl → Fl → Fl
  | nan, _ => nan
  | _, nan => nan
  | pinf, pinf => nan
  | pinf, ninf => nan
  | ninf, pinf => nan
  | ninf, ninf => nan
  | pinf, num b => if b.isNeg then ninf else pinf
  | ninf, num b => if b.isNeg then pinf else ninf
  | num _, pinf => num (Q.ofInt 0)
  | num _, ninf => num (Q.ofInt 0)
  | num a, num b =>
      if b.isZero then (if a.isPos then pinf else if a.isNeg then ninf else nan)
      else num (a.div b)

/-- Negation. -/
def neg : Fl → Fl
  | nan => nan
  | pinf => ninf
  | ninf => pinf
  | num a => num a.neg

/-- f64::abs. -/
def abs : Fl → Fl
  | nan => nan
  | pinf => pinf
  | ninf => pinf
  | num a => num a.qabs

/-- IEEE strict less-than: false whenever an operand is NaN. -/
def lt : Fl → Fl → Bool
  | nan, _ => false
  | _, nan => false
  | ninf, ninf => false
  | ninf, _ => true
  | _, ninf => false
  | pinf, _ => false
  | num _, pinf => true
  | num a, num b => a.blt b

/-- IEEE less-or-equal: false whenever an operand is NaN. -/
def le : Fl → Fl → Bool
  | nan, _ => false
  | _, nan => false
  | ninf, _ => true
  | _, ninf => false
  | _, pinf => true
  | pinf, num _ => false
  | num a, num b => a.ble b

/-- IEEE strict greater-than. -/
def gt (a b : Fl) : Bool := lt b a

/-- IEEE greater-or-equal. -/
def ge (a b : Fl) : Bool := le b a

/-- Rust f64::max: ignores NaN (returns the other operand), otherwise the
larger value. -/
def fmax (a b : Fl) : Fl :=
  if a = nan then b else if b = nan then a else if le a b then b else a

/-- Rust f64::min: ignores NaN, otherwise the smaller value. -/
def fmin (a b : Fl) : Fl :=
  if a = nan then b else if b = nan then a else if le b a then b else a

/-- IEEE equality: false whenever an operand is NaN, else value equality. -/
def feq : Fl → Fl → Bool
  | nan, _ => false
  | _, nan => false
  | num a, num b => a.qeq b
  | a, b => a = b

/-- Embed an integer f64 value. -/
def int (n : ℤ) : Fl := num (Q.ofInt n)

end Fl

/-- EPSILON as an Fl value. -/
def epsF : Fl := .num ⟨1, 100000⟩

/-- Tuple over the float model (only construction and component access are
needed by the bounds code). -/
structure TupleF where
  x : Fl
  y : Fl
  z : Fl
  w : Fl
deriving DecidableEq, Repr

/-- Tuple::point over the float model. -/
def pointF (x y z : Fl) : TupleF := ⟨x, y, z, .int 1⟩

/-- Tuple::vector over the float model. -/
def vectorF (x y z : Fl) : TupleF := ⟨x, y, z, .int 0⟩

/-- Ray over the float model. -/
structure RayF where
  origin : TupleF
  direction : TupleF
deriving DecidableEq, Repr

/-- A 4 by 4 transform matrix over the float model, with named entries (the
bounds code only ever multiplies a matrix with a tuple). -/
structure MatrixF where
  m00 : Fl
  m01 : Fl
  m02 : Fl
  m03 : Fl
  m10 : Fl
  m11 : Fl
  m12 : Fl
  m13 : Fl
  m20 : Fl
  m21 : Fl
  m22 : Fl
  m23 : Fl
  m30 : Fl
  m31 : Fl
  m32 : Fl
  m33 : Fl
deriving DecidableEq, Repr

namespace MatrixF

/-- Mul of a Matrix by a Tuple over the float model. -/
def mulTuple (m : MatrixF) (t : TupleF) : TupleF :=
  ⟨((m.m00.mul t.x).add (m.m01.mul t.y)).add ((m.m02.mul t.z).add (m.m03.mul t.w)),
   ((m.m10.mul t.x).add (m.m11.mul t.y)).add ((m.m12.mul t.z).add (m.m13.mul t.w)),
   ((m.m20.mul t.x).add (m.m21.mul t.y)).add ((m.m22.mul t.z).add (m.m23.mul t.w)),
   ((m.m30.mul t.x).add (m.m31.mul t.y)).add ((m.m32.mul t.z).add (m.m33.mul t.w))⟩

/-- Constant IDENTITY_MATRIX over the float model. -/
def identity : MatrixF :=
  ⟨.int 1, .int 0, .int 0, .int 0,
   .int 0, .int 1, .int 0, .int 0,
   .int 0, .int 0, .int 1, .int 0,
   .int 0, .int 0, .int 0, .int 1⟩

/-- Matrix::translation over the float model. -/
def translationF (x y z : Fl) : MatrixF :=
  ⟨.int 1, .int 0, .int 0, x,
   .int 0, .int 1, .int 0, y,
   .int 0, .int 0, .int 1, z,
   .int 0, .int 0, .int 0, .int 1⟩

/-- Matrix::scaling over the float model. -/
def scalingF (x y z : Fl) : MatrixF :=
  ⟨x, .int 0, .int 0, .int 0,
   .int 0, y, .int 0, .int 0,
   .int 0, .int 0, z, .int 0,
   .int 0, .int 0, .int 0, .int 1⟩

end MatrixF

/-- Struct BoundingBox from bounds.rs. -/
structure BoundingBox where
  min : TupleF
  max : TupleF
deriving DecidableEq, Repr

namespace BoundingBox

/-- BoundingBox::empty: min at plus infinity, max at minus infinity. -/
def empty : BoundingBox :=
  ⟨pointF .pinf .pinf .pinf, pointF .ninf .ninf .ninf⟩

/-- BoundingBox::contains_point (bounds.rs lines 24-31). -/
def contains_point (b : BoundingBox) (p : TupleF) : Bool :=
  p.x.ge b.min.x && p.x.le b.max.x &&
  p.y.ge b.min.y && p.y.le b.max.y &&
  p.z.ge b.min.z && p.z.le b.max.z

/-- BoundingBox::contains_box (bounds.rs lines 33-35). -/
def contains_box (b other : BoundingBox) : Bool :=
  b.contains_point other.min && b.contains_point other.max

/-- Add of a Tuple to a BoundingBox (bounds.rs lines 144-161): componentwise
Rust min/max. -/
def addPoint (b : BoundingBox) (p : TupleF) : BoundingBox :=
  ⟨pointF (b.min.x.fmin p.x) (b.min.y.fmin p.y) (b.min.z.fmin p.z),
   pointF (b.max.x.fmax p.x) (b.max.y.fmax p.y) (b.max.z.fmax p.z)⟩

/-- Add of a BoundingBox to a BoundingBox (bounds.rs lines 125-142). -/
def addBox (b other : BoundingBox) : BoundingBox :=
  ⟨pointF (b.min.x.fmin other.min.x) (b.min.y.fmin other.min.y) (b.min.z.fmin other.min.z),
   pointF (b.max.x.fmax other.max.x) (b.max.y.fmax other.max.y) (b.max.z.fmax other.max.z)⟩

/-- BoundingBox::transform (bounds.rs lines 37-47): the empty box extended by
the eight transformed corners. -/
def transform (b : BoundingBox) (matrix : MatrixF) : BoundingBox :=
  ((((((((empty.addPoint
    (matrix.mulTuple b.min)).addPoint
    (matrix.mulTuple (pointF b.min.x b.min.y b.max.z))).addPoint
    (matrix.mulTuple (pointF b.min.x b.max.y b.min.z))).addPoint
    (matrix.mulTuple (pointF b.min.x b.max.y b.max.z))).addPoint
    (matrix.mulTuple (pointF b.max.x b.min.y b.min.z))).addPoint
    (matrix.mulTuple (pointF b.max.x b.min.y b.max.z))).addPoint
    (matrix.mulTuple (pointF b.max.x b.max.y b.min.z))).addPoint
    (matrix.mulTuple b.max))

/-- BoundingBox::check_axis (bounds.rs lines 67-82): divide the numerators by
the direction when its magnitude is at least EPSILON, otherwise multiply them
by the (signed) infinity; then order the pair. -/
def check_axis (origin direction min max : Fl) : Fl × Fl :=
  let tmin_numerator := min.sub origin
  let tmax_numerator := max.sub origin
  let p :=
    if (direction.abs.ge epsF) then
      (tmin_numerator.div direction, tmax_numerator.div direction)
    else
      (tmin_numerator.mul .pinf, tmax_numerator.mul .pinf)
  if p.1.gt p.2 then (p.2, p.1) else p

/-- The overall entry parameter of the slab test: the Rust max of the three
per-axis minima. -/
def slabTmin (b : BoundingBox) (ray : RayF) : Fl :=
  ((check_axis ray.origin.x ray.direction.x b.min.x b.max.x).1).fmax
    (((check_axis ray.origin.y ray.direction.y b.min.y b.max.y).1).fmax
      ((check_axis ray.origin.z ray.direction.z b.min.z b.max.z).1))

/-- The overall exit parameter of the slab test: the Rust min of the three
per-axis maxima. -/
def slabTmax (b : BoundingBox) (ray : RayF) : Fl :=
  ((check_axis ray.origin.x ray.direction.x b.min.x b.max.x).2).fmin
    (((check_axis ray.origin.y ray.direction.y b.min.y b.max.y).2).fmin
      ((check_axis ray.origin.z ray.direction.z b.min.z b.max.z).2))

/-- BoundingBox::intersects (bounds.rs lines 49-64). -/
def intersects (b : BoundingBox) (ray : RayF) : Bool :=
  if (slabTmin b ray).gt (slabTmax b ray) then false else true

/-- BoundingBox::split (bounds.rs lines 84-122): bisect the single longest
axis (ties resolved X then Y then Z by the comparison order of the source). -/
def split (b : BoundingBox) : BoundingBox × BoundingBox :=
  let dx := b.max.x.sub b.min.x
  let dy := b.max.y.sub b.min.y
  let dz := b.max.z.sub b.min.z
  let greatest := dx.fmax (dy.fmax dz)
  let x0 := b.min.x
  let y0 := b.min.y
  let z0 := b.min.z
  let x1 := b.max.x
  let y1 := b.max.y
  let z1 := b.max.z
  let (x0, y0, z0, x1, y1, z1) :=
    if greatest.feq dx then
      let x0 := x0.add (dx.div (.int 2))
      (x0, y0, z0, x0, y1, z1)
    else if greatest.feq dy then
      let y0 := y0.add (dy.div (.int 2))
      (x0, y0, z0, x1, y0, z1)
    else
      let z0 := z0.add (dz.div (.int 2))
      (x0, y0, z0, x1, y1, z0)
  let mid_min := pointF x0 y0 z0
  let mid_max := pointF x1 y1 z1
  (⟨b.min, mid_max⟩, ⟨mid_min, b.max⟩)

end BoundingBox

end FP

namespace FP

/-- Struct Group from shapes/group.rs: id, transform, optional parent id and
the ordered child ids. -/
structure GroupF where
  id : ℕ
  transform : MatrixF
  parentId : Option ℕ
  childrenIds : List ℕ
deriving DecidableEq, Repr

/-- The Shape enum restricted to the variants the bounds/partition claims
exercise: Sphere (transform and parent id; the material plays no role in the
bounds code) and Group. -/
inductive ShapeF where
  | sphere (transform : MatrixF) (parentId : Option ℕ)
  | group (g : GroupF)
deriving DecidableEq, Repr

namespace ShapeF

/-- Shape::set_parent_id dispatch. -/
def set_parent_id (s : ShapeF) (parentId : Option ℕ) : ShapeF :=
  match s with
  | .sphere t _ => .sphere t parentId
  | .group g => .group { g with parentId := parentId }

/-- Shape::transform dispatch. -/
def transform : ShapeF → MatrixF
  | .sphere t _ => t
  | .group g => g.transform

end ShapeF

/-- Struct Arena from arena.rs over the float-model shapes. -/
structure ArenaF where
  objects : List (Option ShapeF)
deriving DecidableEq, Repr

namespace ArenaF

/-- Arena::new. -/
def new : ArenaF := ⟨[]⟩

/-- Arena::add: push Some(object) and return its id. -/
def add (a : ArenaF) (object : ShapeF) : ℕ × ArenaF :=
  (a.objects.length, ⟨a.objects ++ [some object]⟩)

/-- Arena::next_id: reserve a None slot and return its id. -/
def next_id (a : ArenaF) : ℕ × ArenaF :=
  (a.objects.length, ⟨a.objects ++ [none]⟩)

/-- Arena::add_with_id (arena.rs lines 27-35): none models the panic on an id
beyond the allocated range or a slot already in use. -/
def add_with_id (a : ArenaF) (id : ℕ) (object : ShapeF) : Option ArenaF :=
  if id ≥ a.objects.length then none
  else if (a.objects.getD id none).isSome then none
  else some ⟨a.objects.set id (some object)⟩

/-- Arena::get (arena.rs lines 37-39): none models the index panic on an id
out of range and the unwrap panic on an unfilled slot. -/
def get? (a : ArenaF) (id : ℕ) : Option ShapeF :=
  match a.objects.get? id with
  | some (some s) => some s
  | _ => none

/-- Arena::apply_changes (arena.rs lines 41-48): none models the index panic
on an id out of range; an unfilled slot is silently left unchanged (the None
match arm of the source does nothing). -/
def apply_changes (a : ArenaF) (id : ℕ) (c : ShapeF → ShapeF) : Option ArenaF :=
  match a.objects.get? id with
  | none => none
  | some none => some a
  | some (some s) => some ⟨a.objects.set id (some (c s))⟩

end ArenaF

/-- Modelled from the spec: the local bounding box of a primitive ("unit
sphere/cube bounds"); the sphere bounds used by the partition scenarios are
the unit box.  The bounds accessor for primitives is called by group.rs but
is not under src. -/
def sphereBounds : BoundingBox :=
  ⟨pointF (.int (-1)) (.int (-1)) (.int (-1)), pointF (.int 1) (.int 1) (.int 1)⟩

/-- The local bounding box of a shape: the unit box for a sphere (see
sphereBounds) and, for a group, Group::bounds (group.rs lines 73-80): the
parent-space bounds of every child folded over the empty box.  Recursion
through the arena is bounded by fuel (an acyclic child graph in an arena of n
objects has depth at most n); none models an arena panic or fuel exhaustion. -/
def shapeBounds : ℕ → ShapeF → ArenaF → Option BoundingBox
  | _, .sphere _ _, _ => some sphereBounds
  | 0, .group _, _ => none
  | fuel + 1, .group g, a =>
      g.childrenIds.foldlM
        (fun acc id => do
          let c ← a.get? id
          let cb ← (shapeBounds fuel c a).map fun b => b.transform c.transform
          pure (acc.addBox cb))
        BoundingBox.empty

/-- Modelled from the spec: Shape::parent_space_bounds is called by group.rs
but is not under src; the spec describes the group box as the union of every
child bounds "re-expressed in the group's own coordinate frame", i.e. the
local bounds transformed by the shape's own transform (the 4.1 transform
operation over the eight corners). -/
def parent_space_bounds (fuel : ℕ) (s : ShapeF) (a : ArenaF) : Option BoundingBox :=
  (shapeBounds fuel s a).map fun b => b.transform s.transform

/-- Group::bounds on a group value (see shapeBounds). -/
def groupBounds (fuel : ℕ) (g : GroupF) (a : ArenaF) : Option BoundingBox :=
  shapeBounds fuel (.group g) a

namespace GroupF

/-- Group::new (group.rs lines 20-27). -/
def new (id : ℕ) : GroupF := ⟨id, MatrixF.identity, none, []⟩

/-- Group::add_child (group.rs lines 29-33): none models the assert panic on
a child already present and the index panic of apply_changes; records the
parent id on the child, then pushes. -/
def add_child (g : GroupF) (childId : ℕ) (a : ArenaF) : Option (GroupF × ArenaF) :=
  if g.childrenIds.contains childId then none
  else do
    let a ← a.apply_changes childId (fun c => c.set_parent_id (some g.id))
    some ({ g with childrenIds := g.childrenIds ++ [childId] }, a)

/-- Group::add_children (group.rs lines 35-39). -/
def add_children (g : GroupF) (childrenIds : List ℕ) (a : ArenaF) :
    Option (GroupF × ArenaF) :=
  match childrenIds with
  | [] => some (g, a)
  | id :: rest =>
      match g.add_child id a with
      | none => none
      | some (g, a) => add_children g rest a

/-- Group::remove_child (group.rs lines 41-50): remove the first occurrence. -/
def remove_child (g : GroupF) (childId : ℕ) : GroupF :=
  { g with childrenIds := g.childrenIds.erase childId }

/-- Group::remove_children (group.rs lines 52-56). -/
def remove_children (g : GroupF) (childrenIds : List ℕ) : GroupF :=
  childrenIds.foldl (fun g id => g.remove_child id) g

/-- Classification loop of Group::partition_children: a child fully contained
in the left half goes left, else fully contained in the right half goes
right, else it is skipped (stays). -/
def partitionLoop (fuel : ℕ) (a : ArenaF) (left right : BoundingBox) :
    List ℕ → Option (List ℕ × List ℕ)
  | [] => some ([], [])
  | id :: rest =>
      match a.get? id with
      | none => none
      | some child =>
        match parent_space_bounds fuel child a with
        | none => none
        | some child_bounds =>
          match partitionLoop fuel a left right rest with
          | none => none
          | some (ls, rs) =>
            if left.contains_box child_bounds then some (id :: ls, rs)
            else if right.contains_box child_bounds then some (ls, id :: rs)
            else some (ls, rs)

/-- Group::partition_children (group.rs lines 82-104): split the group box,
classify every child, remove the reassigned children from the group. -/
def partition_children (fuel : ℕ) (g : GroupF) (a : ArenaF) :
    Option ((List ℕ × List ℕ) × GroupF) := do
  let b ← groupBounds fuel g a
  let (left, right) := b.split
  let (left_ids, right_ids) ← partitionLoop fuel a left right g.childrenIds
  let g := g.remove_children left_ids
  let g := g.remove_children right_ids
  some ((left_ids, right_ids), g)

/-- Group::make_subgroup (group.rs lines 106-112): reserve an id, build the
subgroup over the given children, insert it at the reserved id, and add it as
a child of the current group. -/
def make_subgroup (g : GroupF) (childrenIds : List ℕ) (a : ArenaF) :
    Option (GroupF × ArenaF) := do
  let (subgroup_id, a) := a.next_id
  let subgroup := GroupF.new subgroup_id
  let (subgroup, a) ← subgroup.add_children childrenIds a
  let a ← a.add_with_id subgroup_id (.group subgroup)
  g.add_child subgroup_id a

/-- Group::divide (group.rs lines 114-128): when the group holds at least
threshold children, partition them and wrap the non-empty halves in two new
subgroups.  The recursion into the resulting children present in the book
algorithm is commented out in the source (lines 124-127): divide performs a
single level of subdivision. -/
def divide (g : GroupF) (threshold : ℕ) (a : ArenaF) : Option (GroupF × ArenaF) :=
  if threshold ≤ g.childrenIds.length then do
    let ((left, right), g) ← partition_children (a.objects.length + 1) g a
    let (g, a) ← if left ≠ [] then g.make_subgroup left a else some (g, a)
    let (g, a) ← if right ≠ [] then g.make_subgroup right a else some (g, a)
    some (g, a)
  else some (g, a)

end GroupF

end FP

namespace FP

/-- Statement of the C5 claim as a definition, for comparison with the source
divide: after the single-level partition, recursively divide every child that
is a group, storing it back into the arena (this is the "recurses into the
resulting children" the claim and the spec describe; the corresponding source
lines are commented out).  Fuel bounds the recursion depth. -/
def divideSpec : ℕ → GroupF → ℕ → ArenaF → Option (GroupF × ArenaF)
  | 0, _, _, _ => none
  | fuel + 1, g, threshold, a => do
      let (g, a) ← g.divide threshold a
      let a ← g.childrenIds.foldlM
        (fun a id =>
          match a.get? id with
          | some (.group cg) => do
              let (cg, a) ← divideSpec fuel cg threshold a
              a.apply_changes id (fun _ => .group cg)
          | _ => some a)
        a
      some (g, a)

/-- The three-children partition scenario of the claim (the divide test of
group.rs): two spheres clustered at x = -2 and one sphere scaled by 4
spanning the center. -/
def divideScenarioArena : ArenaF :=
  ⟨[none,
    some (.sphere (MatrixF.translationF (.int (-2)) (.int (-2)) (.int 0)) (some 0)),
    some (.sphere (MatrixF.translationF (.int (-2)) (.int 2) (.int 0)) (some 0)),
    some (.sphere (MatrixF.scalingF (.int 4) (.int 4) (.int 4)) (some 0))]⟩

/-- The group of the three-children scenario (arena slot 0 reserved for it,
children 1, 2, 3 added, parent ids stamped). -/
def divideScenarioGroup : GroupF := ⟨0, MatrixF.identity, none, [1, 2, 3]⟩

/-- A four-sphere scenario separating the source divide from the recursive
divide of the claim: spheres at x = -6, -2, 2, 6, so that both halves receive
two children and the claimed recursion would subdivide each new subgroup
again (threshold 1). -/
def divideScenario4Arena : ArenaF :=
  ⟨[none,
    some (.sphere (MatrixF.translationF (.int (-6)) (.int 0) (.int 0)) (some 0)),
    some (.sphere (MatrixF.translationF (.int (-2)) (.int 0) (.int 0)) (some 0)),
    some (.sphere (MatrixF.translationF (.int 2) (.int 0) (.int 0)) (some 0)),
    some (.sphere (MatrixF.translationF (.int 6) (.int 0) (.int 0)) (some 0))]⟩

/-- The group of the four-sphere scenario. -/
def divideScenario4Group : GroupF := ⟨0, MatrixF.identity, none, [1, 2, 3, 4]⟩

end FP

namespace RT

open Classical

/-- Material of the two mutually reflective planes:
MaterialBuilder::default().reflective(1.). -/
noncomputable def reflectiveMaterial : Material :=
  { DEFAULT_MATERIAL with reflective := 1 }

/-- The lower plane of the mutual-reflection scene: reflective 1.0,
translated to y = -1. -/
noncomputable def lowerPlane : Shape :=
  .plane (Matrix.translation 0 (-1) 0) reflectiveMaterial none

/-- The upper plane of the mutual-reflection scene: reflective 1.0,
translated to y = +1. -/
noncomputable def upperPlane : Shape :=
  .plane (Matrix.translation 0 1 0) reflectiveMaterial none

/-- The mutual-reflection world of world.rs: light at the origin, the two
planes as objects 0 and 1. -/
noncomputable def twoPlanesWorld : World :=
  ⟨⟨Tuple.point 0 0 0, Color.WHITE⟩, ⟨[some lowerPlane, some upperPlane]⟩, [0, 1]⟩

/-- The ray of the mutual-reflection scene: origin, pointing up. -/
noncomputable def twoPlanesRay : Ray :=
  ⟨Tuple.point 0 0 0, Tuple.vector 0 1 0⟩

/-- Glass material with the given refractive index:
MaterialBuilder::default().transparency(1.).refractive_index(n). -/
noncomputable def glassMaterial (n : ℝ) : Material :=
  { DEFAULT_MATERIAL with transparency := 1, refractive_index := n }

/-- The three concentric glass spheres of the n1/n2 scenario: A scaled by 2
with index 1.5, B shifted to z = -0.25 with index 2, C shifted to z = 0.25
with index 2.5, as arena objects 0, 1, 2. -/
noncomputable def glassArena : Arena :=
  ⟨[some (.sphere (Matrix.scaling 2 2 2) (glassMaterial 1.5) none),
    some (.sphere (Matrix.translation 0 0 (-0.25)) (glassMaterial 2) none),
    some (.sphere (Matrix.translation 0 0 0.25) (glassMaterial 2.5) none)]⟩

/-- The ray of the n1/n2 scenario. -/
noncomputable def glassRay : Ray := ⟨Tuple.point 0 0 (-4), Tuple.vector 0 0 1⟩

/-- The six ordered intersections of the n1/n2 scenario. -/
noncomputable def glassXs : List Intersection :=
  [⟨2, 0⟩, ⟨2.75, 1⟩, ⟨3.25, 2⟩, ⟨4.75, 1⟩, ⟨5.25, 2⟩, ⟨6, 0⟩]

/-- The arena of the Schlick perpendicular scenario: one glass sphere of
index 1.5 at the origin. -/
noncomputable def schlickArena : Arena :=
  ⟨[some (.sphere Matrix.IDENTITY_MATRIX (glassMaterial 1.5) none)]⟩

/-- The ray of the Schlick perpendicular scenario: origin, pointing up inside
the sphere. -/
noncomputable def schlickRay : Ray := ⟨Tuple.point 0 0 0, Tuple.vector 0 1 0⟩

/-- The arena of the prepare_computations witness: one default sphere. -/
noncomputable def defaultSphereArena : Arena :=
  ⟨[some (.sphere Matrix.IDENTITY_MATRIX DEFAULT_MATERIAL none)]⟩

/-- The ray of the prepare_computations witness. -/
noncomputable def precomputeRay : Ray := ⟨Tuple.point 0 0 (-5), Tuple.vector 0 0 1⟩

end RT

namespace RT

/-- The inverse of the identity matrix as Matrix::inverse produces it (the
identity on the 4 by 4 range, zero outside). -/
noncomputable def invIdentityM : Matrix :=
  ⟨4, fun r c => if r < 4 ∧ c < 4 then (if r = c then 1 else 0) else 0⟩

/-- The inverse of a translation as Matrix::inverse produces it: the opposite
translation on the 4 by 4 range, zero outside. -/
noncomputable def translationInv (x y z : ℝ) : Matrix :=
  ⟨4, fun r c =>
    if r < 4 ∧ c < 4 then (Matrix.translation (-x) (-y) (-z)).data r c else 0⟩

/-- The inverse of a scaling as Matrix::inverse produces it: the reciprocal
scaling on the 4 by 4 range, zero outside. -/
noncomputable def scalingInv (x y z : ℝ) : Matrix :=
  ⟨4, fun r c =>
    if r < 4 ∧ c < 4 then (Matrix.scaling x⁻¹ y⁻¹ z⁻¹).data r c else 0⟩

end RT

namespace RT

/-- The PreparedComputations value of the precompute witness scenario: the
default sphere hit at t = 4 by the ray from (0, 0, -5) along +z. -/
noncomputable def precomputeComps : PreparedComputations :=
  ⟨4, .sphere Matrix.IDENTITY_MATRIX DEFAULT_MATERIAL none,
   ⟨0, 0, -1, 1⟩, ⟨0, 0, -0.99999, 1⟩, ⟨0, 0, -1.00001, 1⟩,
   ⟨0, 0, -1, 0⟩, ⟨0, 0, -1, 0⟩, false, ⟨0, 0, -1, 0⟩, 1, 1⟩

end RT

namespace RT

/-- The invertible test matrix of the inverse round-trip scenario
(matrix.rs test calculating_the_inverse_of_a_matrix, determinant 532). -/
noncomputable def roundtripM : Matrix :=
  ⟨4, fun r c =>
    [[-5, 2, 6, -8], [1, -5, 1, 8], [7, 7, -6, -7], [1, -3, 7, 4]].getD r [] |>.getD c 0⟩

/-- The downward bounce ray of the mutual-reflection scene: from the over
point below the upper plane, along the reflection direction. -/
noncomputable def bounceDownRay : Ray := ⟨⟨0, 99999 / 100000, 0, 1⟩, ⟨0, -1, 0, 0⟩⟩

/-- The upward bounce ray of the mutual-reflection scene: from the over point
above the lower plane, along the reflection direction. -/
noncomputable def bounceUpRay : Ray := ⟨⟨0, -(99999 / 100000), 0, 1⟩, ⟨0, 1, 0, 0⟩⟩

/-- PreparedComputations for the initial upward ray hitting the upper plane
at t = 1 (inside, normal flipped to face the eye). -/
noncomputable def compsUp0Val : PreparedComputations :=
  ⟨1, upperPlane, ⟨0, 1, 0, 1⟩, ⟨0, 100001 / 100000, 0, 1⟩, ⟨0, 99999 / 100000, 0, 1⟩,
   ⟨0, -1, 0, 0⟩, ⟨0, -1, 0, 0⟩, true, ⟨0, -1, 0, 0⟩, 1, 1⟩

/-- PreparedComputations for the upward bounce ray hitting the upper plane at
t = 199999/100000. -/
noncomputable def compsUpVal : PreparedComputations :=
  ⟨199999 / 100000, upperPlane, ⟨0, 1, 0, 1⟩, ⟨0, 100001 / 100000, 0, 1⟩,
   ⟨0, 99999 / 100000, 0, 1⟩,
   ⟨0, -1, 0, 0⟩, ⟨0, -1, 0, 0⟩, true, ⟨0, -1, 0, 0⟩, 1, 1⟩

/-- PreparedComputations for the downward bounce ray hitting the lower plane
at t = 199999/100000 (outside: the raw normal already faces the eye). -/
noncomputable def compsDownVal : PreparedComputations :=
  ⟨199999 / 100000, lowerPlane, ⟨0, -1, 0, 1⟩, ⟨0, -(100001 / 100000), 0, 1⟩,
   ⟨0, -(99999 / 100000), 0, 1⟩,
   ⟨0, 1, 0, 0⟩, ⟨0, 1, 0, 0⟩, false, ⟨0, 1, 0, 0⟩, 1, 1⟩

end RT

/-- Demonstration shape for the arena witness. -/
def demoShape : FP.ShapeF := .sphere FP.MatrixF.identity none

/-- Demonstration arena for the arena witness: one filled slot and one
reserved-but-unfilled slot. -/
def demoArena : FP.ArenaF := ⟨[some demoShape, none]⟩

/-- Well-formedness of a float value for the NaN conjunct: a finite rational
with positive denominator (every value the program constructs is of this
form). -/
def flWf : FP.Fl → Bool
  | .num q => 0 < q.d
  | _ => false

/-- Well-formedness of all six coordinates of a bounding box. -/
def boxWf (b : FP.BoundingBox) : Bool :=
  flWf b.min.x && flWf b.min.y && flWf b.min.z &&
  flWf b.max.x && flWf b.max.y && flWf b.max.z

/-- Well-formedness of all six coordinates of a ray. -/
def rayWf (r : FP.RayF) : Bool :=
  flWf r.origin.x && flWf r.origin.y && flWf r.origin.z &&
  flWf r.direction.x && flWf r.direction.y && flWf r.direction.z

/-!
Theorems.  Each claim of the specification audit has exactly one theorem,
with a witness or counterexample theorem where required.
-/

section ClaimC9

/-- C9: an Arena operation referencing an id never allocated fails fast
(add_with_id, get and apply_changes all panic, modelled by none, when the id
is at or beyond the allocated range); add_with_id also fails fast on a
double-insert into an already-filled slot; and get fails exactly when the id
is out of range or the slot is unfilled. -/
theorem arena_invalid_id_fail_fast (a : FP.ArenaF) (id : ℕ) (s : FP.ShapeF)
    (c : FP.ShapeF → FP.ShapeF) :
    (a.objects.length ≤ id →
      a.add_with_id id s = none ∧ a.get? id = none ∧ a.apply_changes id c = none) ∧
    (∀ x, a.objects.get? id = some (some x) → a.add_with_id id s = none) ∧
    (a.get? id = none ↔ a.objects.length ≤ id ∨ a.objects.get? id = some none) := by
  refine ⟨?_, ?_, ?_⟩
  · intro h
    have hg : a.objects.get? id = none := List.get?_eq_none.mpr h
    rw [List.get?_eq_getElem?] at hg
    refine ⟨?_, ?_, ?_⟩
    · simp [FP.ArenaF.add_with_id, h]
    · simp [FP.ArenaF.get?, List.get?_eq_getElem?, hg]
    · simp [FP.ArenaF.apply_changes, List.get?_eq_getElem?, hg]
  · intro x hx
    have hid : id < a.objects.length := by
      by_contra hh
      push_neg at hh
      rw [List.get?_eq_none.mpr hh] at hx
      exact Option.noConfusion hx
    rw [List.get?_eq_getElem?] at hx
    simp [FP.ArenaF.add_with_id, List.getD_eq_getElem?_getD, hx, Nat.not_le.mpr hid]
  · unfold FP.ArenaF.get?
    rcases hg : a.objects.get? id with _ | os
    · simp [List.get?_eq_none.mp hg]
    · rcases os with _ | x
      · simp
      · have hid : ¬ a.objects.length ≤ id := by
          by_contra hh
          rw [List.get?_eq_none.mpr hh] at hg
          exact Option.noConfusion hg
        simp [hid]

/-- Witness for C9 at a concrete arena: id 5 is never allocated (all three
operations fail), slot 0 is already filled (double insert fails), slot 1 is
reserved but unfilled (get fails). -/
theorem arena_invalid_id_fail_fast_witness :
    (demoArena.add_with_id 5 demoShape = none ∧ demoArena.get? 5 = none ∧
      demoArena.apply_changes 5 id = none) ∧
    demoArena.add_with_id 0 demoShape = none ∧
    demoArena.get? 1 = none :=
  ⟨(arena_invalid_id_fail_fast demoArena 5 demoShape id).1 (by decide),
   (arena_invalid_id_fail_fast demoArena 0 demoShape id).2.1 demoShape (by decide),
   ((arena_invalid_id_fail_fast demoArena 1 demoShape id).2.2).mpr (Or.inr (by decide))⟩

end ClaimC9

section ClaimC2

open RT RT.Intersection

/-- Invariant of the hit loop: a some result is an element (or the carried
response), is non-negative, stays at or below the running minimum, and beats
every non-negative element below the running minimum. -/
lemma hitLoop_some_spec (xs : List RT.Intersection) :
    ∀ (min : ℝ) (resp : Option RT.Intersection) (i : RT.Intersection),
    (∀ r, resp = some r → 0 ≤ r.t ∧ r.t ≤ min) →
    hitLoop xs min resp = some i →
    (i ∈ xs ∨ resp = some i) ∧ 0 ≤ i.t ∧ i.t ≤ min ∧
      ∀ j ∈ xs, 0 ≤ j.t → j.t < min → i.t ≤ j.t := by
  induction xs with
  | nil =>
    intro min resp i hresp hrun
    simp only [hitLoop] at hrun
    rcases hresp i hrun with ⟨h1, h2⟩
    exact ⟨Or.inr hrun, h1, h2, by simp⟩
  | cons x rest ih =>
    intro min resp i hresp hrun
    simp only [hitLoop] at hrun
    by_cases hc : x.t ≥ 0 ∧ x.t < min
    · rw [if_pos hc] at hrun
      have := ih x.t (some x) i (by
        intro r hr
        injection hr with hr
        exact ⟨hr ▸ hc.1, le_of_eq (congrArg RT.Intersection.t hr.symm)⟩) hrun
      rcases this with ⟨hmem, hnn, hle, hmin⟩
      refine ⟨?_, hnn, le_trans hle (le_of_lt hc.2), ?_⟩
      · rcases hmem with h | h
        · exact Or.inl (List.mem_cons_of_mem x h)
        · injection h with h
          exact Or.inl (h ▸ List.mem_cons_self x rest)
      · intro j hj hj0 hjlt
        rcases List.mem_cons.mp hj with rfl | hj
        · exact hle
        · by_cases hx : j.t < x.t
          · exact hmin j hj hj0 hx
          · push_neg at hx
            exact le_trans hle hx
    · rw [if_neg hc] at hrun
      have := ih min resp i hresp hrun
      rcases this with ⟨hmem, hnn, hle, hmin⟩
      refine ⟨?_, hnn, hle, ?_⟩
      · rcases hmem with h | h
        · exact Or.inl (List.mem_cons_of_mem x h)
        · exact Or.inr h
      · intro j hj hj0 hjlt
        rcases List.mem_cons.mp hj with rfl | hj
        · exact absurd ⟨hj0, hjlt⟩ hc
        · exact hmin j hj hj0 hjlt

/-- The hit loop never loses a carried response. -/
lemma hitLoop_ne_none (xs : List RT.Intersection) :
    ∀ (min : ℝ) (r : RT.Intersection), hitLoop xs min (some r) ≠ none := by
  induction xs with
  | nil => intro min r; simp [hitLoop]
  | cons x rest ih =>
    intro min r
    simp only [hitLoop]
    by_cases hc : x.t ≥ 0 ∧ x.t < min
    · rw [if_pos hc]; exact ih _ _
    · rw [if_neg hc]; exact ih _ _

/-- The hit loop returns none exactly when the carried response is none and
no element is non-negative below the running minimum. -/
lemma hitLoop_none_iff (xs : List RT.Intersection) :
    ∀ (min : ℝ) (resp : Option RT.Intersection),
    (hitLoop xs min resp = none ↔ resp = none ∧ ∀ j ∈ xs, ¬(0 ≤ j.t ∧ j.t < min)) := by
  induction xs with
  | nil => intro min resp; simp [hitLoop]
  | cons x rest ih =>
    intro min resp
    simp only [hitLoop]
    by_cases hc : x.t ≥ 0 ∧ x.t < min
    · rw [if_pos hc]
      constructor
      · intro h
        exact absurd h (hitLoop_ne_none rest x.t x)
      · rintro ⟨-, hall⟩
        exact absurd ⟨hc.1, hc.2⟩ (hall x (List.mem_cons_self x rest))
    · rw [if_neg hc]
      rw [ih]
      constructor
      · rintro ⟨h1, h2⟩
        refine ⟨h1, ?_⟩
        intro j hj
        rcases List.mem_cons.mp hj with rfl | hj
        · exact fun hh => hc ⟨hh.1, hh.2⟩
        · exact h2 j hj
      · rintro ⟨h1, h2⟩
        exact ⟨h1, fun j hj => h2 j (List.mem_cons_of_mem x hj)⟩

/-- C2 (amended): for every sequence of intersections whose t values are all
below the f64::MAX sentinel that initializes the running minimum,
Intersection::hit returns an element of the sequence with the smallest
non-negative t (so an intersection with negative t is never returned), and
returns none exactly when every t in the sequence is negative; for the
t-values [5, 7, -3, 2] the hit is the one with t = 2. -/
theorem hit_smallest_nonneg (xs : List RT.Intersection)
    (hb : ∀ i ∈ xs, i.t < f64MAX) :
    (∀ i, hit xs = some i →
      i ∈ xs ∧ 0 ≤ i.t ∧ ∀ j ∈ xs, 0 ≤ j.t → i.t ≤ j.t) ∧
    (hit xs = none ↔ ∀ j ∈ xs, j.t < 0) ∧
    hit [⟨5, 0⟩, ⟨7, 0⟩, ⟨-3, 0⟩, ⟨2, 0⟩] = some ⟨2, 0⟩ := by
  refine ⟨?_, ?_, ?_⟩
  · intro i hi
    have := hitLoop_some_spec xs f64MAX none i (by intro r hr; exact Option.noConfusion hr) hi
    rcases this with ⟨hmem, hnn, -, hmin⟩
    refine ⟨?_, hnn, ?_⟩
    · rcases hmem with h | h
      · exact h
      · exact Option.noConfusion h
    · intro j hj hj0
      exact hmin j hj hj0 (hb j hj)
  · simp only [hit]
    rw [hitLoop_none_iff]
    constructor
    · rintro ⟨-, hall⟩ j hj
      by_contra hneg
      push_neg at hneg
      exact hall j hj ⟨hneg, hb j hj⟩
    · intro hall
      refine ⟨rfl, ?_⟩
      intro j hj hcontra
      exact absurd hcontra.1 (not_le.mpr (hall j hj))
  · norm_num [hit, hitLoop, f64MAX]

/-- Witness for C2 at a concrete bounded sequence: the mixed-sign example of
the claim satisfies the bound, the hit is t = 2, and it is minimal. -/
theorem hit_smallest_nonneg_witness :
    RT.Intersection.hit [⟨5, 0⟩, ⟨7, 0⟩, ⟨-3, 0⟩, ⟨2, 0⟩] = some ⟨2, 0⟩ :=
  (hit_smallest_nonneg [⟨5, 0⟩, ⟨7, 0⟩, ⟨-3, 0⟩, ⟨2, 0⟩] (by
    intro i hi
    simp only [List.mem_cons, List.mem_singleton] at hi
    rcases hi with rfl | rfl | rfl | rfl | h
    · norm_num [f64MAX]
    · norm_num [f64MAX]
    · norm_num [f64MAX]
    · norm_num [f64MAX]
    · exact absurd h (List.not_mem_nil i))).2.2

/-- Counterexample to C2 as stated: for the single intersection with
t = f64::MAX (a non-negative t), hit returns none, because the loop compares
with strict less-than against the f64::MAX sentinel. -/
theorem hit_f64max_counterexample :
    RT.Intersection.hit [⟨f64MAX, 0⟩] = none ∧ (0 : ℝ) ≤ f64MAX := by
  constructor
  · norm_num [hit, hitLoop]
  · norm_num [f64MAX]

end ClaimC2

section ClaimC5

/-- C5 (amended): Group::divide(threshold, arena), when the group holds at
least threshold children, splits the group bounding box and moves each child
whose parent-space bounds are fully contained in the left or right half into
one of (at most) two new sub-group nodes, a child straddling the seam staying
at the current level, but performs only this single level of subdivision (the
recursion into the resulting children is commented out in the source); when
the group holds fewer than threshold children nothing changes.  For
threshold = 1 on three children with two clustered on one side and one
spanning the center, the straddling child (id 3) remains at the parent level
and exactly one sub-group (the single new arena entry, id 4) holds the two
clustered children. -/
theorem divide_single_level (g : FP.GroupF) (threshold : ℕ) (a : FP.ArenaF) :
    (g.childrenIds.length < threshold → g.divide threshold a = some (g, a)) ∧
    ((FP.divideScenarioGroup.divide 1 FP.divideScenarioArena).map
        (fun p => (p.1.childrenIds, p.2.objects.length, p.2.get? 4)))
      = some ([3, 4], 5,
          some (.group ⟨4, FP.MatrixF.identity, some 0, [1, 2]⟩)) := by
  constructor
  · intro h
    unfold FP.GroupF.divide
    rw [if_neg (Nat.not_le.mpr h)]
  · decide

/-- Witness for C5 at a concrete input with threshold above the child count:
divide leaves the group and the arena unchanged. -/
theorem divide_single_level_witness :
    FP.GroupF.divide FP.divideScenarioGroup 5 FP.divideScenarioArena =
      some (FP.divideScenarioGroup, FP.divideScenarioArena) :=
  (divide_single_level FP.divideScenarioGroup 5 FP.divideScenarioArena).1 (by decide)

/-- Counterexample to C5 as stated: on four spheres split two and two,
the source divide differs from the recursive divide the claim describes
(which succeeds on ample fuel and subdivides the new subgroups again): the
subgroup created at id 5 holds the two plain sphere children and is itself
never divided although it meets the threshold. -/
theorem divide_no_recursion_counterexample :
    FP.GroupF.divide FP.divideScenario4Group 1 FP.divideScenario4Arena ≠
      FP.divideSpec 10 FP.divideScenario4Group 1 FP.divideScenario4Arena ∧
    (FP.divideSpec 10 FP.divideScenario4Group 1 FP.divideScenario4Arena).isSome = true ∧
    ((FP.divideScenario4Group.divide 1 FP.divideScenario4Arena).map
        (fun p => (p.1.childrenIds, p.2.get? 5, p.2.objects.length)))
      = some ([5, 6],
          some (.group ⟨5, FP.MatrixF.identity, some 0, [1, 2]⟩), 7) := by
  refine ⟨by decide, by decide, by decide⟩

end ClaimC5

section ClaimC6

open FP FP.Fl FP.BoundingBox

/-- A regular axis (finite well-formed inputs, direction magnitude at least
EPSILON) yields finite slab parameters: the division is by a provably
non-zero value and no NaN arises. -/
lemma check_axis_regular_not_nan (o d mn mx : FP.Fl)
    (ho : flWf o = true) (hd : flWf d = true) (hmn : flWf mn = true)
    (hmx : flWf mx = true) (hge : d.abs.ge epsF = true) :
    (check_axis o d mn mx).1 ≠ .nan ∧ (check_axis o d mn mx).2 ≠ .nan := by
  rcases o with qo | _ | _ | _ <;> simp [flWf] at ho
  rcases d with qd | _ | _ | _ <;> simp [flWf] at hd
  rcases mn with qmn | _ | _ | _ <;> simp [flWf] at hmn
  rcases mx with qmx | _ | _ | _ <;> simp [flWf] at hmx
  have hdn : qd.n ≠ 0 := by
    intro h0
    simp only [Fl.abs, Fl.ge, Fl.le, epsF, Q.ble, Q.qabs, h0] at hge
    simp at hge
    omega
  have hz : (qd.isZero) = false := by simp [Q.isZero, hdn]
  simp only [check_axis, hge, if_true, Fl.sub, Fl.div, hz]
  simp only [Bool.false_eq_true, if_false]
  by_cases hswap : (Fl.num ((qmn.sub qo).div qd)).gt (Fl.num ((qmx.sub qo).div qd)) = true
  · rw [if_pos hswap]
    exact ⟨by simp, by simp⟩
  · rw [if_neg hswap]
    exact ⟨by simp, by simp⟩

/-- Rust f64::max never introduces a NaN when one operand is not NaN. -/
lemma fmax_ne_nan (a b : FP.Fl) (h : a ≠ .nan ∨ b ≠ .nan) : a.fmax b ≠ .nan := by
  unfold Fl.fmax
  by_cases ha : a = Fl.nan
  · rw [if_pos ha]
    rcases h with h | h
    · exact absurd ha h
    · exact h
  · rw [if_neg ha]
    by_cases hb : b = Fl.nan
    · rw [if_pos hb]
      exact ha
    · rw [if_neg hb]
      by_cases hle : a.le b = true
      · rw [if_pos hle]; exact hb
      · rw [if_neg hle]; exact ha

/-- Rust f64::min never introduces a NaN when one operand is not NaN. -/
lemma fmin_ne_nan (a b : FP.Fl) (h : a ≠ .nan ∨ b ≠ .nan) : a.fmin b ≠ .nan := by
  unfold Fl.fmin
  by_cases ha : a = Fl.nan
  · rw [if_pos ha]
    rcases h with h | h
    · exact absurd ha h
    · exact h
  · rw [if_neg ha]
    by_cases hb : b = Fl.nan
    · rw [if_pos hb]
      exact ha
    · rw [if_neg hb]
      by_cases hle : b.le a = true
      · rw [if_pos hle]; exact hb
      · rw [if_neg hle]; exact ha

/-- C6: BoundingBox::intersects is total and no NaN reaches its decision on
any well-formed ray: (i) when the direction magnitude of an axis is below
EPSILON, check_axis multiplies the two numerators by the signed infinity and
performs no division; (ii) otherwise it divides by the direction, which is
provably non-zero; (iii) the ray is declared a miss exactly when the overall
entry parameter (Rust max of the per-axis minima) exceeds the overall exit
parameter (Rust min of the per-axis maxima); and (iv) for every finite
well-formed box and ray with at least one axis of direction magnitude at
least EPSILON, the overall entry and exit parameters are never NaN (the NaN
that 0 times infinity can produce on a degenerate axis is absorbed by the
NaN-ignoring Rust max/min), so the final comparison is a genuine numeric
comparison and the boolean result is always defined. -/
theorem bounding_box_intersects_slab (o d mn mx : FP.Fl) (b : FP.BoundingBox)
    (ray : FP.RayF) :
    (d.abs.ge epsF = false →
      check_axis o d mn mx =
        (let tmin := (mn.sub o).mul .pinf
         let tmax := (mx.sub o).mul .pinf
         if tmin.gt tmax then (tmax, tmin) else (tmin, tmax))) ∧
    (d.abs.ge epsF = true →
      check_axis o d mn mx =
        (let tmin := (mn.sub o).div d
         let tmax := (mx.sub o).div d
         if tmin.gt tmax then (tmax, tmin) else (tmin, tmax))) ∧
    (intersects b ray = false ↔ (slabTmin b ray).gt (slabTmax b ray) = true) ∧
    (boxWf b = true → rayWf ray = true →
      (ray.direction.x.abs.ge epsF = true ∨ ray.direction.y.abs.ge epsF = true ∨
        ray.direction.z.abs.ge epsF = true) →
      slabTmin b ray ≠ .nan ∧ slabTmax b ray ≠ .nan) := by
  refine ⟨?_, ?_, ?_, ?_⟩
  · intro h
    simp [check_axis, h]
  · intro h
    simp [check_axis, h]
  · unfold intersects
    by_cases h : (slabTmin b ray).gt (slabTmax b ray) = true
    · rw [if_pos h]
      simp [h]
    · rw [if_neg h]
      simp [h]
  · intro hb hr haxis
    simp only [boxWf, Bool.and_eq_true] at hb
    simp only [rayWf, Bool.and_eq_true] at hr
    rcases hb with ⟨⟨⟨⟨⟨hb1, hb2⟩, hb3⟩, hb4⟩, hb5⟩, hb6⟩
    rcases hr with ⟨⟨⟨⟨⟨hr1, hr2⟩, hr3⟩, hr4⟩, hr5⟩, hr6⟩
    rcases haxis with hx | hy | hz
    · have := check_axis_regular_not_nan ray.origin.x ray.direction.x b.min.x b.max.x
        hr1 hr4 hb1 hb4 hx
      exact ⟨fmax_ne_nan _ _ (Or.inl this.1), fmin_ne_nan _ _ (Or.inl this.2)⟩
    · have := check_axis_regular_not_nan ray.origin.y ray.direction.y b.min.y b.max.y
        hr2 hr5 hb2 hb5 hy
      exact ⟨fmax_ne_nan _ _ (Or.inr (fmax_ne_nan _ _ (Or.inl this.1))),
        fmin_ne_nan _ _ (Or.inr (fmin_ne_nan _ _ (Or.inl this.2)))⟩
    · have := check_axis_regular_not_nan ray.origin.z ray.direction.z b.min.z b.max.z
        hr3 hr6 hb3 hb6 hz
      exact ⟨fmax_ne_nan _ _ (Or.inr (fmax_ne_nan _ _ (Or.inr this.1))),
        fmin_ne_nan _ _ (Or.inr (fmin_ne_nan _ _ (Or.inr this.2)))⟩

/-- Witness for C6 at concrete inputs, including the degenerate axis where
0 times infinity produces an internal NaN: the unit box and the grazing ray
from (1, 1/2, 0) along +z have a near-zero x direction with the origin on the
x = 1 face, yet the slab parameters are not NaN and the test answers; the
near-zero and regular check_axis characterizations are instantiated as
well. -/
theorem bounding_box_intersects_slab_witness :
    (check_axis (.int 1) (.int 0) (.int (-1)) (.int 1) =
      (let tmin := ((FP.Fl.int (-1)).sub (.int 1)).mul .pinf
       let tmax := ((FP.Fl.int 1).sub (.int 1)).mul .pinf
       if tmin.gt tmax then (tmax, tmin) else (tmin, tmax))) ∧
    (check_axis (.int 0) (.int 1) (.int (-1)) (.int 1) =
      (let tmin := ((FP.Fl.int (-1)).sub (.int 0)).div (.int 1)
       let tmax := ((FP.Fl.int 1).sub (.int 0)).div (.int 1)
       if tmin.gt tmax then (tmax, tmin) else (tmin, tmax))) ∧
    (intersects ⟨pointF (.int (-1)) (.int (-1)) (.int (-1)),
        pointF (.int 1) (.int 1) (.int 1)⟩
        ⟨pointF (.int 1) (.num ⟨1, 2⟩) (.int 0), vectorF (.int 0) (.int 0) (.int 1)⟩
      = false ↔
      (slabTmin ⟨pointF (.int (-1)) (.int (-1)) (.int (-1)),
          pointF (.int 1) (.int 1) (.int 1)⟩
          ⟨pointF (.int 1) (.num ⟨1, 2⟩) (.int 0), vectorF (.int 0) (.int 0) (.int 1)⟩).gt
        (slabTmax ⟨pointF (.int (-1)) (.int (-1)) (.int (-1)),
            pointF (.int 1) (.int 1) (.int 1)⟩
            ⟨pointF (.int 1) (.num ⟨1, 2⟩) (.int 0), vectorF (.int 0) (.int 0) (.int 1)⟩) = true) ∧
    (slabTmin ⟨pointF (.int (-1)) (.int (-1)) (.int (-1)),
        pointF (.int 1) (.int 1) (.int 1)⟩
        ⟨pointF (.int 1) (.num ⟨1, 2⟩) (.int 0), vectorF (.int 0) (.int 0) (.int 1)⟩ ≠ .nan ∧
      slabTmax ⟨pointF (.int (-1)) (.int (-1)) (.int (-1)),
          pointF (.int 1) (.int 1) (.int 1)⟩
          ⟨pointF (.int 1) (.num ⟨1, 2⟩) (.int 0), vectorF (.int 0) (.int 0) (.int 1)⟩ ≠ .nan) :=
  ⟨(bounding_box_intersects_slab (.int 1) (.int 0) (.int (-1)) (.int 1)
      ⟨pointF (.int (-1)) (.int (-1)) (.int (-1)), pointF (.int 1) (.int 1) (.int 1)⟩
      ⟨pointF (.int 1) (.num ⟨1, 2⟩) (.int 0), vectorF (.int 0) (.int 0) (.int 1)⟩).1
    (by decide),
   (bounding_box_intersects_slab (.int 0) (.int 1) (.int (-1)) (.int 1)
      ⟨pointF (.int (-1)) (.int (-1)) (.int (-1)), pointF (.int 1) (.int 1) (.int 1)⟩
      ⟨pointF (.int 1) (.num ⟨1, 2⟩) (.int 0), vectorF (.int 0) (.int 0) (.int 1)⟩).2.1
    (by decide),
   (bounding_box_intersects_slab (.int 0) (.int 1) (.int (-1)) (.int 1)
      ⟨pointF (.int (-1)) (.int (-1)) (.int (-1)), pointF (.int 1) (.int 1) (.int 1)⟩
      ⟨pointF (.int 1) (.num ⟨1, 2⟩) (.int 0), vectorF (.int 0) (.int 0) (.int 1)⟩).2.2.1,
   (bounding_box_intersects_slab (.int 0) (.int 1) (.int (-1)) (.int 1)
      ⟨pointF (.int (-1)) (.int (-1)) (.int (-1)), pointF (.int 1) (.int 1) (.int 1)⟩
      ⟨pointF (.int 1) (.num ⟨1, 2⟩) (.int 0), vectorF (.int 0) (.int 0) (.int 1)⟩).2.2.2
    (by decide) (by decide) (Or.inr (Or.inr (by decide)))⟩

end ClaimC6

section ClaimC7

open RT

/-- C7 (amended): Cone::local_normal_at always returns the radial vector
whose x and z components are those of the point and whose y component
squares to x^2 + z^2 (the cone slope sqrt(x^2+z^2)), non-positive above the
apex (y > 0) and non-negative otherwise; it has no end-cap special case (the
cone normal ignores minimum, maximum and closed).  The cap special case
exists only in Cylinder::local_normal_at, which returns plus or minus Y for a
point with x^2 + z^2 < 1 within EPSILON of a capped end, and the radial
vector (x, 0, z) otherwise. -/
theorem cone_cylinder_local_normal (p : Tuple) (mn mx : ℝ) :
    ((coneLocalNormalAt p).x = p.x ∧ (coneLocalNormalAt p).z = p.z ∧
      (coneLocalNormalAt p).w = 0 ∧
      (coneLocalNormalAt p).y ^ 2 = p.x ^ 2 + p.z ^ 2 ∧
      (p.y > 0 → (coneLocalNormalAt p).y ≤ 0) ∧
      (¬p.y > 0 → 0 ≤ (coneLocalNormalAt p).y)) ∧
    ((p.x ^ 2 + p.z ^ 2 < 1 ∧ p.y ≥ mx - EPSILON →
        cylinderLocalNormalAt mn mx p = Tuple.vector 0 1 0) ∧
      (¬(p.x ^ 2 + p.z ^ 2 < 1 ∧ p.y ≥ mx - EPSILON) →
        p.x ^ 2 + p.z ^ 2 < 1 ∧ p.y ≤ mn + EPSILON →
        cylinderLocalNormalAt mn mx p = Tuple.vector 0 (-1) 0) ∧
      (¬(p.x ^ 2 + p.z ^ 2 < 1 ∧ p.y ≥ mx - EPSILON) →
        ¬(p.x ^ 2 + p.z ^ 2 < 1 ∧ p.y ≤ mn + EPSILON) →
        cylinderLocalNormalAt mn mx p = Tuple.vector p.x 0 p.z)) := by
  constructor
  · have hnn : (0 : ℝ) ≤ p.x ^ 2 + p.z ^ 2 := by positivity
    by_cases hy : p.y > 0
    · simp only [coneLocalNormalAt, if_pos hy, Tuple.vector, true_and, and_true]
      refine ⟨?_, ?_, ?_⟩
      · rw [neg_pow]
        simp [Real.sq_sqrt hnn]
      · intro _
        simp [Real.sqrt_nonneg]
      · intro h
        exact absurd hy h
    · simp only [coneLocalNormalAt, if_neg hy, Tuple.vector, true_and, and_true]
      refine ⟨Real.sq_sqrt hnn, ?_, ?_⟩
      · intro h
        exact absurd h hy
      · intro _
        exact Real.sqrt_nonneg _
  · refine ⟨?_, ?_, ?_⟩
    · intro h
      simp only [cylinderLocalNormalAt, if_pos h]
    · intro h1 h2
      simp only [cylinderLocalNormalAt, if_neg h1, if_pos h2]
    · intro h1 h2
      simp only [cylinderLocalNormalAt, if_neg h1, if_neg h2]

/-- Witness for C7 at concrete points: the cone normal at (1, 1, 1) has
x = 1, z = 1, squared slope 2 and non-positive y; the cylinder capped at
y in [-1, 1] reports +Y at (0, 1, 0). -/
theorem cone_cylinder_local_normal_witness :
    (coneLocalNormalAt (Tuple.point 1 1 1)).x = 1 ∧
    (coneLocalNormalAt (Tuple.point 1 1 1)).y ^ 2 = 2 ∧
    (coneLocalNormalAt (Tuple.point 1 1 1)).y ≤ 0 ∧
    cylinderLocalNormalAt (-1) 1 (Tuple.point 0 1 0) = Tuple.vector 0 1 0 := by
  have h := cone_cylinder_local_normal (Tuple.point 1 1 1) (-1) 1
  have h2 := cone_cylinder_local_normal (Tuple.point 0 1 0) (-1) 1
  refine ⟨h.1.1, ?_, h.1.2.2.2.2.1 (by norm_num [Tuple.point]), ?_⟩
  · rw [h.1.2.2.2.1]
    norm_num [RT.Tuple.point]
  · exact h2.2.1 (by norm_num [Tuple.point, EPSILON])

/-- Counterexample to C7 as stated: the point (3, -6, 4) on the closed cone
truncated to y between -10 and -6 lies exactly on the capped end y = maximum
(within EPSILON) and inside the cap radius (9 + 16 is at most 36), yet
Cone::local_normal_at returns the radial vector (3, 5, 4), not a vector
along plus or minus Y: the cone normal has no cap branch. -/
theorem cone_normal_cap_counterexample :
    |(-6 : ℝ) - (-6)| ≤ EPSILON ∧
    (3 : ℝ) ^ 2 + 4 ^ 2 ≤ (-6 : ℝ) ^ 2 ∧
    coneLocalNormalAt (Tuple.point 3 (-6) 4) = Tuple.vector 3 5 4 ∧
    coneLocalNormalAt (Tuple.point 3 (-6) 4) ≠ Tuple.vector 0 1 0 ∧
    coneLocalNormalAt (Tuple.point 3 (-6) 4) ≠ Tuple.vector 0 (-1) 0 := by
  have hs : Real.sqrt ((3 : ℝ) ^ 2 + 4 ^ 2) = 5 := by
    rw [show (3 : ℝ) ^ 2 + 4 ^ 2 = 5 ^ 2 by norm_num]
    exact Real.sqrt_sq (by norm_num)
  have hs25 : Real.sqrt 25 = 5 := by
    rw [show (25 : ℝ) = 5 ^ 2 by norm_num]
    exact Real.sqrt_sq (by norm_num)
  have hval : coneLocalNormalAt (Tuple.point 3 (-6) 4) = Tuple.vector 3 5 4 := by
    simp only [coneLocalNormalAt, Tuple.point, Tuple.vector]
    norm_num [hs25]
  refine ⟨by norm_num [EPSILON], by norm_num, hval, ?_, ?_⟩
  · rw [hval]
    simp only [Tuple.vector, ne_eq, Tuple.mk.injEq]
    norm_num
  · rw [hval]
    simp only [Tuple.vector, ne_eq, Tuple.mk.injEq]
    norm_num

end ClaimC7

section MatrixEvaluation

open RT

/-- List.range 4 as an explicit list, for determinant evaluation. -/
lemma rangeFourEq : List.range 4 = [0, 1, 2, 3] := by decide

/-- List.range 3 as an explicit list, for determinant evaluation. -/
lemma rangeThreeEq : List.range 3 = [0, 1, 2] := by decide

/-- The determinant of the identity matrix evaluates to 1. -/
lemma det_identity : RT.Matrix.determinant RT.Matrix.IDENTITY_MATRIX = 1 := by
  norm_num [RT.Matrix.determinant, RT.Matrix.detN, RT.Matrix.subEntry,
    RT.Matrix.IDENTITY_MATRIX, rangeFourEq, rangeThreeEq, List.foldl]

/-- Matrix::inverse of the identity matrix. -/
lemma inverse_identity : RT.Matrix.IDENTITY_MATRIX.inverse = some invIdentityM := by
  rw [RT.Matrix.inverse]
  rw [if_neg (by rw [det_identity]; norm_num)]
  refine congrArg some ?_
  refine congrArg (RT.Matrix.mk 4) ?_
  funext r c
  simp only [RT.Matrix.IDENTITY_MATRIX, invIdentityM]
  by_cases hr : r < 4 ∧ c < 4
  · rw [if_pos hr, if_pos hr]
    rcases hr with ⟨hr4, hc4⟩
    interval_cases r <;> interval_cases c <;>
      norm_num [RT.Matrix.cofactorN, RT.Matrix.minorN, RT.Matrix.detN,
        RT.Matrix.subEntry, RT.Matrix.determinant, RT.Matrix.IDENTITY_MATRIX,
        rangeThreeEq, List.foldl]
  · rw [if_neg hr, if_neg hr]

/-- The transpose of the produced identity inverse is itself. -/
lemma invIdentityM_transpose : invIdentityM.transpose = invIdentityM := by
  rw [RT.Matrix.transpose]
  refine congrArg (RT.Matrix.mk 4) ?_
  funext r c
  simp only [invIdentityM]
  by_cases hr : r < 4 ∧ c < 4
  · rw [if_pos hr, if_pos hr, if_pos ⟨hr.2, hr.1⟩]
    by_cases hrc : r = c
    · rw [if_pos hrc.symm, if_pos hrc]
    · rw [if_neg (fun h => hrc h.symm), if_neg hrc]
  · rw [if_neg hr, if_neg hr]

/-- Applying the produced identity inverse to a tuple returns the tuple. -/
lemma invIdentityM_mulTuple (t : RT.Tuple) : invIdentityM.mulTuple t = t := by
  simp only [RT.Matrix.mulTuple, invIdentityM]
  norm_num

/-- The determinant of a translation evaluates to 1. -/
lemma det_translation (x y z : ℝ) :
    RT.Matrix.determinant (RT.Matrix.translation x y z) = 1 := by
  norm_num [RT.Matrix.determinant, RT.Matrix.detN, RT.Matrix.subEntry,
    RT.Matrix.translation, rangeFourEq, rangeThreeEq, List.foldl]

/-- Matrix::inverse of a translation is the opposite translation. -/
lemma inverse_translation (x y z : ℝ) :
    (RT.Matrix.translation x y z).inverse = some (translationInv x y z) := by
  rw [RT.Matrix.inverse]
  rw [if_neg (by rw [det_translation]; norm_num)]
  refine congrArg some ?_
  refine congrArg (RT.Matrix.mk 4) ?_
  funext r c
  show (if r < 4 ∧ c < 4 then _ else (0:ℝ)) = _
  by_cases hr : r < 4 ∧ c < 4
  · rw [if_pos hr, if_pos hr]
    rcases hr with ⟨hr4, hc4⟩
    interval_cases r <;> interval_cases c <;>
      · show RT.Matrix.cofactorN _ _ _ _ / _ = _
        rw [det_translation]
        norm_num [RT.Matrix.cofactorN, RT.Matrix.minorN, RT.Matrix.detN,
          RT.Matrix.subEntry, RT.Matrix.translation, rangeThreeEq, List.foldl]
  · rw [if_neg hr, if_neg hr]

/-- Applying the produced translation inverse to a tuple. -/
lemma translationInv_mulTuple (x y z : ℝ) (t : RT.Tuple) :
    (translationInv x y z).mulTuple t =
      ⟨t.x - x * t.w, t.y - y * t.w, t.z - z * t.w, t.w⟩ := by
  simp only [RT.Matrix.mulTuple, translationInv, RT.Matrix.translation]
  norm_num
  all_goals constructor <;> try constructor
  all_goals ring

/-- Applying the transpose of the produced translation inverse to a tuple:
only the homogeneous component changes. -/
lemma translationInv_transpose_mulTuple (x y z : ℝ) (t : RT.Tuple) :
    (translationInv x y z).transpose.mulTuple t =
      ⟨t.x, t.y, t.z, -(x * t.x) - y * t.y - z * t.z + t.w⟩ := by
  simp only [RT.Matrix.mulTuple, RT.Matrix.transpose, translationInv,
    RT.Matrix.translation]
  norm_num
  ring

/-- The determinant of a scaling evaluates to the product of the factors. -/
lemma det_scaling (x y z : ℝ) :
    RT.Matrix.determinant (RT.Matrix.scaling x y z) = x * y * z := by
  norm_num [RT.Matrix.determinant, RT.Matrix.detN, RT.Matrix.subEntry,
    RT.Matrix.scaling, rangeFourEq, rangeThreeEq, List.foldl]
  ring

/-- Matrix::inverse of a scaling with non-zero factors is the reciprocal
scaling. -/
lemma inverse_scaling (x y z : ℝ) (hx : x ≠ 0) (hy : y ≠ 0) (hz : z ≠ 0) :
    (RT.Matrix.scaling x y z).inverse = some (scalingInv x y z) := by
  rw [RT.Matrix.inverse]
  rw [if_neg (by
    rw [det_scaling]
    exact mul_ne_zero (mul_ne_zero hx hy) hz)]
  refine congrArg some ?_
  refine congrArg (RT.Matrix.mk 4) ?_
  funext r c
  show (if r < 4 ∧ c < 4 then _ else (0:ℝ)) = _
  by_cases hr : r < 4 ∧ c < 4
  · rw [if_pos hr, if_pos hr]
    rcases hr with ⟨hr4, hc4⟩
    interval_cases r <;> interval_cases c <;>
      · show RT.Matrix.cofactorN _ _ _ _ / _ = _
        rw [det_scaling]
        norm_num [RT.Matrix.cofactorN, RT.Matrix.minorN, RT.Matrix.detN,
          RT.Matrix.subEntry, RT.Matrix.scaling, rangeThreeEq, List.foldl]
        try field_simp
        try ring
  · rw [if_neg hr, if_neg hr]

/-- Applying the produced scaling inverse to a tuple. -/
lemma scalingInv_mulTuple (x y z : ℝ) (t : RT.Tuple) :
    (scalingInv x y z).mulTuple t = ⟨x⁻¹ * t.x, y⁻¹ * t.y, z⁻¹ * t.z, t.w⟩ := by
  simp only [RT.Matrix.mulTuple, scalingInv, RT.Matrix.scaling]
  norm_num

/-- The transpose of the produced scaling inverse applied to a tuple. -/
lemma scalingInv_transpose_mulTuple (x y z : ℝ) (t : RT.Tuple) :
    (scalingInv x y z).transpose.mulTuple t =
      ⟨x⁻¹ * t.x, y⁻¹ * t.y, z⁻¹ * t.z, t.w⟩ := by
  simp only [RT.Matrix.mulTuple, RT.Matrix.transpose, scalingInv, RT.Matrix.scaling]
  norm_num

end MatrixEvaluation

section ClaimC4

open RT

/-- C4: schlick() computes cos as the eye/normal dot product; when n1 > n2 it
computes the squared transmitted sine; whenever that value is at least 1 the
reflectance is exactly 1 (the code returns 1 early when it exceeds 1, and at
exactly 1 the substituted cosine is 0 so the formula itself yields 1); in all
other cases the result is r0 + (1-r0)(1-cos)^5 with r0 = ((n1-n2)/(n1+n2))^2
and with cos replaced by sqrt(1-sin2) when n1 > n2; a ray striking a
refractive-index-1.5 sphere perpendicular to the surface yields reflectance
exactly 0.04. -/
theorem schlick_spec (comps : PreparedComputations) :
    (comps.n1 > comps.n2 →
      comps.n1 / comps.n2 * (comps.n1 / comps.n2) *
        (1 - comps.eyev.dot comps.normalv * comps.eyev.dot comps.normalv) ≥ 1 →
      comps.schlick = 1) ∧
    (comps.n1 > comps.n2 →
      ¬(comps.n1 / comps.n2 * (comps.n1 / comps.n2) *
          (1 - comps.eyev.dot comps.normalv * comps.eyev.dot comps.normalv) > 1) →
      comps.schlick =
        ((comps.n1 - comps.n2) / (comps.n1 + comps.n2)) ^ (2 : ℕ) +
          (1 - ((comps.n1 - comps.n2) / (comps.n1 + comps.n2)) ^ (2 : ℕ)) *
            (1 - Real.sqrt (1 - comps.n1 / comps.n2 * (comps.n1 / comps.n2) *
              (1 - comps.eyev.dot comps.normalv * comps.eyev.dot comps.normalv)))
                ^ (5 : ℕ)) ∧
    (¬comps.n1 > comps.n2 →
      comps.schlick =
        ((comps.n1 - comps.n2) / (comps.n1 + comps.n2)) ^ (2 : ℕ) +
          (1 - ((comps.n1 - comps.n2) / (comps.n1 + comps.n2)) ^ (2 : ℕ)) *
            (1 - comps.eyev.dot comps.normalv) ^ (5 : ℕ)) ∧
    (Option.map PreparedComputations.schlick
      (Intersection.prepare_computations ⟨1, 0⟩ schlickArena schlickRay
        [⟨-1, 0⟩, ⟨1, 0⟩])) = some 0.04 := by
  refine ⟨?_, ?_, ?_, ?_⟩
  · intro h1 h2
    simp only [PreparedComputations.schlick, if_pos h1]
    by_cases hgt : comps.n1 / comps.n2 * (comps.n1 / comps.n2) *
        (1 - comps.eyev.dot comps.normalv * comps.eyev.dot comps.normalv) > 1
    · rw [if_pos hgt]
    · rw [if_neg hgt]
      have heq : comps.n1 / comps.n2 * (comps.n1 / comps.n2) *
          (1 - comps.eyev.dot comps.normalv * comps.eyev.dot comps.normalv) = 1 :=
        le_antisymm (not_lt.mp hgt) h2
      rw [heq]
      norm_num
  · intro h1 hgt
    simp only [PreparedComputations.schlick, if_pos h1, if_neg hgt]
  · intro h1
    simp only [PreparedComputations.schlick, if_neg h1]
  · norm_num [Intersection.prepare_computations, schlickArena, schlickRay, Arena.get?,
      Shape.normal_at, Shape.world_to_object, Shape.normal_to_world, Shape.parentId,
      Shape.local_normal_at, sphereLocalNormalAt, Shape.transform, Shape.material,
      inverse_identity, invIdentityM_transpose, invIdentityM_mulTuple,
      Tuple.point, Tuple.vector, Tuple.add, Tuple.sub, Tuple.neg, Tuple.smul,
      Tuple.dot, Tuple.normalize, Tuple.magnitude, Tuple.reflect, Ray.position,
      RT.n1n2, RT.n1n2Go, RT.refrOfTop, RT.containersToggle, glassMaterial,
      DEFAULT_MATERIAL, PreparedComputations.schlick, EPSILON, Real.sqrt_one]

/-- Witness for C4: a total-internal-reflection state (n1 = 1.5 into
n2 = 1.0 at the 45 degree grazing state of the world.rs test, where the
squared transmitted sine is 9/8) gives reflectance exactly 1, and the
non-reflective branch applies below the critical angle. -/
theorem schlick_spec_witness :
    (PreparedComputations.mk 1 (.sphere RT.Matrix.IDENTITY_MATRIX (glassMaterial 1.5) none)
      (Tuple.point 0 0 0) (Tuple.point 0 0 0) (Tuple.point 0 0 0)
      (Tuple.vector 0 (-1) 0) (Tuple.vector 0 (-(Real.sqrt 2 / 2)) 0) false
      (Tuple.vector 0 0 0) 1.5 1).schlick = 1 ∧
    (PreparedComputations.mk 1 (.sphere RT.Matrix.IDENTITY_MATRIX (glassMaterial 1.5) none)
      (Tuple.point 0 0 0) (Tuple.point 0 0 0) (Tuple.point 0 0 0)
      (Tuple.vector 0 (-1) 0) (Tuple.vector 0 (-1) 0) false
      (Tuple.vector 0 0 0) 1 1.5).schlick =
      ((1 - 1.5) / (1 + 1.5)) ^ (2 : ℕ) +
        (1 - ((1 - 1.5) / (1 + 1.5)) ^ (2 : ℕ)) * (1 - 1) ^ (5 : ℕ) := by
  constructor
  · have h := (schlick_spec (PreparedComputations.mk 1
      (.sphere RT.Matrix.IDENTITY_MATRIX (glassMaterial 1.5) none)
      (Tuple.point 0 0 0) (Tuple.point 0 0 0) (Tuple.point 0 0 0)
      (Tuple.vector 0 (-1) 0) (Tuple.vector 0 (-(Real.sqrt 2 / 2)) 0) false
      (Tuple.vector 0 0 0) 1.5 1)).1
    refine h (by norm_num) ?_
    have hs : Real.sqrt 2 / 2 * (Real.sqrt 2 / 2) = 1 / 2 := by
      rw [div_mul_div_comm, Real.mul_self_sqrt (by norm_num)]
      norm_num
    simp only [Tuple.dot, Tuple.vector]
    norm_num [hs]
  · have h := (schlick_spec (PreparedComputations.mk 1
      (.sphere RT.Matrix.IDENTITY_MATRIX (glassMaterial 1.5) none)
      (Tuple.point 0 0 0) (Tuple.point 0 0 0) (Tuple.point 0 0 0)
      (Tuple.vector 0 (-1) 0) (Tuple.vector 0 (-1) 0) false
      (Tuple.vector 0 0 0) 1 1.5)).2.2.1
    rw [h (by norm_num)]
    simp only [Tuple.dot, Tuple.vector]
    norm_num

end ClaimC4

section ClaimC10

open RT

/-- C10: for every ray and intersection it is prepared from, the
PreparedComputations satisfy: the stored normal faces the eye
(dot(normalv, eyev) is non-negative); the eye vector is the negated ray
direction; the inside flag is set exactly when the raw shape normal had
negative dot product with the eye vector, in which case the stored normal is
its negation; and over_point and under_point are point plus and minus
normalv times EPSILON, so they lie on opposite sides of the surface along
the stored normal. -/
theorem prepare_computations_normal_faces_eye (self : Intersection) (a : Arena)
    (r : Ray) (xs : List Intersection) (comps : PreparedComputations)
    (h : self.prepare_computations a r xs = some comps) :
    0 ≤ comps.normalv.dot comps.eyev ∧
    comps.eyev = r.direction.neg ∧
    (∀ object temp, a.get? self.objectId = some object →
      object.normal_at a (r.position self.t) = some temp →
      ((comps.inside = true ↔ temp.dot comps.eyev < 0) ∧
        comps.normalv = if temp.dot comps.eyev < 0 then temp.neg else temp)) ∧
    comps.over_point = comps.point.add (comps.normalv.smul EPSILON) ∧
    comps.under_point = comps.point.sub (comps.normalv.smul EPSILON) ∧
    (comps.over_point.sub comps.under_point) = (comps.normalv.smul EPSILON).smul 2 := by
  unfold Intersection.prepare_computations at h
  rcases hobj : a.get? self.objectId with _ | object
  · rw [hobj] at h
    exact Option.noConfusion h
  rw [hobj] at h
  simp only [Option.bind_eq_bind, Option.some_bind] at h
  rcases hn : object.normal_at a (r.position self.t) with _ | temp
  · rw [hn] at h
    exact Option.noConfusion h
  rw [hn] at h
  simp only [Option.some_bind] at h
  rcases hnn : RT.n1n2 a self xs with _ | n
  · rw [hnn] at h
    exact Option.noConfusion h
  rw [hnn] at h
  simp only [Option.some_bind, Option.some.injEq] at h
  subst h
  have hdotneg : ∀ u v : Tuple, (u.neg).dot v = -(u.dot v) := by
    intro u v
    simp only [Tuple.neg, Tuple.dot]
    ring
  refine ⟨?_, rfl, ?_, ?_, ?_, ?_⟩
  · by_cases hd : temp.dot (r.direction.neg) < 0
    · simp only [if_pos hd, hdotneg]
      linarith
    · simp only [if_neg hd]
      exact not_lt.mp hd
  · intro object2 temp2 hobj2 hn2
    have hoe : object = object2 := by
      rw [Option.some.injEq] at hobj2
      exact hobj2
    subst hoe
    have hte : temp = temp2 := by
      rw [hn, Option.some.injEq] at hn2
      exact hn2
    subst hte
    exact ⟨by simp only [decide_eq_true_eq], rfl⟩
  · rfl
  · rfl
  · simp only [Tuple.sub, Tuple.add, Tuple.smul, Tuple.mk.injEq]
    refine ⟨by ring, by ring, by ring, by ring⟩

/-- Witness for C10 at the precompute scenario: the default sphere hit at
t = 4 from (0, 0, -5) along +z prepares successfully and its stored normal
faces the eye. -/
theorem prepare_computations_normal_faces_eye_witness :
    0 ≤ precomputeComps.normalv.dot precomputeComps.eyev ∧
    precomputeComps.over_point =
      precomputeComps.point.add (precomputeComps.normalv.smul EPSILON) := by
  have hp : Intersection.prepare_computations ⟨4, 0⟩ defaultSphereArena precomputeRay
      [⟨4, 0⟩] = some precomputeComps := by
    norm_num [Intersection.prepare_computations, defaultSphereArena, precomputeRay,
      Arena.get?, Shape.normal_at, Shape.world_to_object, Shape.normal_to_world,
      Shape.parentId, Shape.local_normal_at, sphereLocalNormalAt, Shape.transform,
      Shape.material, inverse_identity, invIdentityM_transpose, invIdentityM_mulTuple,
      Tuple.point, Tuple.vector, Tuple.add, Tuple.sub, Tuple.neg, Tuple.smul,
      Tuple.dot, Tuple.normalize, Tuple.magnitude, Tuple.reflect, Ray.position,
      RT.n1n2, RT.n1n2Go, RT.refrOfTop, RT.containersToggle,
      DEFAULT_MATERIAL, EPSILON, Real.sqrt_one, precomputeComps]
  have h := prepare_computations_normal_faces_eye ⟨4, 0⟩ defaultSphereArena
    precomputeRay [⟨4, 0⟩] precomputeComps hp
  exact ⟨h.1, h.2.2.2.1⟩

end ClaimC10

section ClaimC3

open RT

/-- Normal of a sphere scaled by 2 with no parent at a surface point on the
z axis (any arena, any material). -/
lemma normal_glass_a (a : Arena) (m : Material) (z w : ℝ)
    (hz : z = 2 * w) (hw : w = 1 ∨ w = -1) :
    Shape.normal_at a (.sphere (RT.Matrix.scaling 2 2 2) m none) ⟨0, 0, z, 1⟩ =
      some ⟨0, 0, w, 0⟩ := by
  have hinv : (RT.Matrix.scaling 2 2 2).inverse = some (scalingInv 2 2 2) :=
    inverse_scaling 2 2 2 (by norm_num) (by norm_num) (by norm_num)
  have hs : Real.sqrt (1 / 4) = 1 / 2 := by
    rw [show (1 / 4 : ℝ) = (1 / 2) ^ 2 by norm_num]
    exact Real.sqrt_sq (by norm_num)
  have hs2 : Real.sqrt (4⁻¹) = 1 / 2 := by
    rw [show (4⁻¹ : ℝ) = 1 / 4 by norm_num]
    exact hs
  subst hz
  rcases hw with rfl | rfl <;>
    norm_num [Shape.normal_at, Shape.world_to_object, Shape.normal_to_world,
      Shape.parentId, Shape.get_parent, Shape.local_normal_at, sphereLocalNormalAt,
      Shape.transform, hinv, scalingInv_mulTuple, scalingInv_transpose_mulTuple,
      Tuple.point, Tuple.vector, Tuple.sub, Tuple.normalize, Tuple.magnitude, hs, hs2]

/-- Normal of a sphere translated to z = -1/4 with no parent at a surface
point on the z axis. -/
lemma normal_glass_b (a : Arena) (m : Material) (z w : ℝ)
    (hz : z + 0.25 = w) (hw : w = 1 ∨ w = -1) :
    Shape.normal_at a (.sphere (RT.Matrix.translation 0 0 (-(1 / 4))) m none)
      ⟨0, 0, z, 1⟩ = some ⟨0, 0, w, 0⟩ := by
  norm_num [Shape.normal_at, Shape.world_to_object, Shape.normal_to_world,
    Shape.parentId, Shape.get_parent, Shape.local_normal_at, sphereLocalNormalAt,
    Shape.transform, inverse_translation, translationInv_mulTuple,
    translationInv_transpose_mulTuple,
    Tuple.point, Tuple.vector, Tuple.sub, Tuple.normalize, Tuple.magnitude]
  have hzw : z + 1 / 4 = w := by linarith
  rw [hzw]
  rcases hw with rfl | rfl
  · norm_num [Real.sqrt_one]
  · norm_num [Real.sqrt_one]

/-- Normal of a sphere translated to z = 1/4 with no parent at a surface
point on the z axis. -/
lemma normal_glass_c (a : Arena) (m : Material) (z w : ℝ)
    (hz : z - 0.25 = w) (hw : w = 1 ∨ w = -1) :
    Shape.normal_at a (.sphere (RT.Matrix.translation 0 0 (1 / 4)) m none)
      ⟨0, 0, z, 1⟩ = some ⟨0, 0, w, 0⟩ := by
  norm_num [Shape.normal_at, Shape.world_to_object, Shape.normal_to_world,
    Shape.parentId, Shape.get_parent, Shape.local_normal_at, sphereLocalNormalAt,
    Shape.transform, inverse_translation, translationInv_mulTuple,
    translationInv_transpose_mulTuple,
    Tuple.point, Tuple.vector, Tuple.sub, Tuple.normalize, Tuple.magnitude]
  have hzw : z - 1 / 4 = w := by linarith
  rw [hzw]
  rcases hw with rfl | rfl
  · norm_num [Real.sqrt_one]
  · norm_num [Real.sqrt_one]

/-- Sphere A entered at world z = -2 (t = 2). -/
lemma normal_glass_a_enter (a : Arena) (m : Material) :
    Shape.normal_at a (.sphere (RT.Matrix.scaling 2 2 2) m none) ⟨0, 0, -2, 1⟩ =
      some ⟨0, 0, -1, 0⟩ :=
  normal_glass_a a m (-2) (-1) (by norm_num) (Or.inr rfl)

/-- Sphere A exited at world z = 2 (t = 6). -/
lemma normal_glass_a_exit (a : Arena) (m : Material) :
    Shape.normal_at a (.sphere (RT.Matrix.scaling 2 2 2) m none) ⟨0, 0, 2, 1⟩ =
      some ⟨0, 0, 1, 0⟩ :=
  normal_glass_a a m 2 1 (by norm_num) (Or.inl rfl)

/-- Sphere B entered at world z = -5/4 (t = 2.75). -/
lemma normal_glass_b_enter (a : Arena) (m : Material) :
    Shape.normal_at a (.sphere (RT.Matrix.translation 0 0 (-(1 / 4))) m none)
      ⟨0, 0, -(5 / 4), 1⟩ = some ⟨0, 0, -1, 0⟩ :=
  normal_glass_b a m (-(5 / 4)) (-1) (by norm_num) (Or.inr rfl)

/-- Sphere B exited at world z = 3/4 (t = 4.75). -/
lemma normal_glass_b_exit (a : Arena) (m : Material) :
    Shape.normal_at a (.sphere (RT.Matrix.translation 0 0 (-(1 / 4))) m none)
      ⟨0, 0, 3 / 4, 1⟩ = some ⟨0, 0, 1, 0⟩ :=
  normal_glass_b a m (3 / 4) 1 (by norm_num) (Or.inl rfl)

/-- Sphere C entered at world z = -3/4 (t = 3.25). -/
lemma normal_glass_c_enter (a : Arena) (m : Material) :
    Shape.normal_at a (.sphere (RT.Matrix.translation 0 0 (1 / 4)) m none)
      ⟨0, 0, -(3 / 4), 1⟩ = some ⟨0, 0, -1, 0⟩ :=
  normal_glass_c a m (-(3 / 4)) (-1) (by norm_num) (Or.inr rfl)

/-- Sphere C exited at world z = 5/4 (t = 5.25). -/
lemma normal_glass_c_exit (a : Arena) (m : Material) :
    Shape.normal_at a (.sphere (RT.Matrix.translation 0 0 (1 / 4)) m none)
      ⟨0, 0, 5 / 4, 1⟩ = some ⟨0, 0, 1, 0⟩ :=
  normal_glass_c a m (5 / 4) 1 (by norm_num) (Or.inl rfl)

/-- n1/n2 pair of the first glass intersection (t = 2, sphere A). -/
lemma glass_pair_0 :
    (Intersection.prepare_computations ⟨2, 0⟩ glassArena glassRay glassXs).map
      (fun c => (c.n1, c.n2)) = some (1, 1.5) := by
  norm_num [Intersection.prepare_computations, glassArena, glassRay, glassXs,
    Arena.get?, normal_glass_a_enter, glassMaterial, DEFAULT_MATERIAL,
    Shape.material, Ray.position, Tuple.point, Tuple.vector, Tuple.add,
    Tuple.sub, Tuple.neg, Tuple.smul, Tuple.dot, Tuple.reflect,
    RT.n1n2, RT.n1n2Go, RT.refrOfTop, RT.containersToggle, EPSILON]

/-- n1/n2 pair of glass intersection number 1 (t = 2.75). -/
lemma glass_pair_1 :
    (Intersection.prepare_computations ⟨2.75, 1⟩ glassArena glassRay glassXs).map
      (fun c => (c.n1, c.n2)) = some (1.5, 2) := by
  norm_num [Intersection.prepare_computations, glassArena, glassRay, glassXs,
    Arena.get?, normal_glass_b_enter, glassMaterial, DEFAULT_MATERIAL,
    Shape.material, Ray.position, Tuple.point, Tuple.vector, Tuple.add,
    Tuple.sub, Tuple.neg, Tuple.smul, Tuple.dot, Tuple.reflect,
    RT.n1n2, RT.n1n2Go, RT.refrOfTop, RT.containersToggle, EPSILON]

/-- n1/n2 pair of glass intersection number 2 (t = 3.25). -/
lemma glass_pair_2 :
    (Intersection.prepare_computations ⟨3.25, 2⟩ glassArena glassRay glassXs).map
      (fun c => (c.n1, c.n2)) = some (2, 2.5) := by
  norm_num [Intersection.prepare_computations, glassArena, glassRay, glassXs,
    Arena.get?, normal_glass_c_enter, glassMaterial, DEFAULT_MATERIAL,
    Shape.material, Ray.position, Tuple.point, Tuple.vector, Tuple.add,
    Tuple.sub, Tuple.neg, Tuple.smul, Tuple.dot, Tuple.reflect,
    RT.n1n2, RT.n1n2Go, RT.refrOfTop, RT.containersToggle, EPSILON]

/-- n1/n2 pair of glass intersection number 3 (t = 4.75). -/
lemma glass_pair_3 :
    (Intersection.prepare_computations ⟨4.75, 1⟩ glassArena glassRay glassXs).map
      (fun c => (c.n1, c.n2)) = some (2.5, 2.5) := by
  norm_num [Intersection.prepare_computations, glassArena, glassRay, glassXs,
    Arena.get?, normal_glass_b_exit, glassMaterial, DEFAULT_MATERIAL,
    Shape.material, Ray.position, Tuple.point, Tuple.vector, Tuple.add,
    Tuple.sub, Tuple.neg, Tuple.smul, Tuple.dot, Tuple.reflect,
    RT.n1n2, RT.n1n2Go, RT.refrOfTop, RT.containersToggle, EPSILON]

/-- n1/n2 pair of glass intersection number 4 (t = 5.25). -/
lemma glass_pair_4 :
    (Intersection.prepare_computations ⟨5.25, 2⟩ glassArena glassRay glassXs).map
      (fun c => (c.n1, c.n2)) = some (2.5, 1.5) := by
  norm_num [Intersection.prepare_computations, glassArena, glassRay, glassXs,
    Arena.get?, normal_glass_c_exit, glassMaterial, DEFAULT_MATERIAL,
    Shape.material, Ray.position, Tuple.point, Tuple.vector, Tuple.add,
    Tuple.sub, Tuple.neg, Tuple.smul, Tuple.dot, Tuple.reflect,
    RT.n1n2, RT.n1n2Go, RT.refrOfTop, RT.containersToggle, EPSILON]

/-- n1/n2 pair of glass intersection number 5 (t = 6). -/
lemma glass_pair_5 :
    (Intersection.prepare_computations ⟨6, 0⟩ glassArena glassRay glassXs).map
      (fun c => (c.n1, c.n2)) = some (1.5, 1) := by
  norm_num [Intersection.prepare_computations, glassArena, glassRay, glassXs,
    Arena.get?, normal_glass_a_exit, glassMaterial, DEFAULT_MATERIAL,
    Shape.material, Ray.position, Tuple.point, Tuple.vector, Tuple.add,
    Tuple.sub, Tuple.neg, Tuple.smul, Tuple.dot, Tuple.reflect,
    RT.n1n2, RT.n1n2Go, RT.refrOfTop, RT.containersToggle, EPSILON]

/-- The container-stack walk stops at the intersection being prepared: for a
list splitting as pre ++ self :: post with self not in pre, n1 is the top of
the stack accumulated over pre and n2 the top after toggling self. -/
lemma n1n2Go_stops (a : Arena) (self : Intersection) (post : List Intersection) :
    ∀ (pre : List Intersection) (cs : List ℕ), self ∉ pre →
      n1n2Go a self (pre ++ self :: post) cs =
        (refrOfTop a (pre.foldl (fun s i => containersToggle s i.objectId) cs)).bind
          fun v1 =>
            (refrOfTop a (containersToggle
                (pre.foldl (fun s i => containersToggle s i.objectId) cs)
                self.objectId)).bind
              fun v2 => some (v1, v2) := by
  intro pre
  induction pre with
  | nil =>
      intro cs h
      simp [n1n2Go]
  | cons i pre ih =>
      intro cs h
      have hi : ¬ (i = self) := by
        intro he
        exact h (by simp [he])
      simp only [List.cons_append, n1n2Go, if_neg hi, List.foldl_cons]
      exact ih _ (fun hm => h (List.mem_cons_of_mem _ hm))

/-- C3: prepare_computations computes n1/n2 by the container-stack walk: for
any intersection list splitting as pre ++ self :: post with self not in pre,
n1 is the refractive index of the stack top accumulated over pre (1 when
empty), the shape of self is then toggled, n2 is the new top's index, and the
walk stops there; consequently the six ordered intersections of the three
concentric glass spheres (indices 1.5, 2, 2.5) report the pairs (1, 1.5),
(1.5, 2), (2, 2.5), (2.5, 2.5), (2.5, 1.5), (1.5, 1). -/
theorem prepare_computations_n1n2 (a : Arena) (self : Intersection)
    (pre post : List Intersection) (hpre : self ∉ pre) :
    (n1n2 a self (pre ++ self :: post) =
      (refrOfTop a (pre.foldl (fun s i => containersToggle s i.objectId) [])).bind
        fun v1 =>
          (refrOfTop a (containersToggle
              (pre.foldl (fun s i => containersToggle s i.objectId) [])
              self.objectId)).bind
            fun v2 => some (v1, v2)) ∧
    ((Intersection.prepare_computations ⟨2, 0⟩ glassArena glassRay glassXs).map
        (fun c => (c.n1, c.n2)) = some (1, 1.5)) ∧
    ((Intersection.prepare_computations ⟨2.75, 1⟩ glassArena glassRay glassXs).map
        (fun c => (c.n1, c.n2)) = some (1.5, 2)) ∧
    ((Intersection.prepare_computations ⟨3.25, 2⟩ glassArena glassRay glassXs).map
        (fun c => (c.n1, c.n2)) = some (2, 2.5)) ∧
    ((Intersection.prepare_computations ⟨4.75, 1⟩ glassArena glassRay glassXs).map
        (fun c => (c.n1, c.n2)) = some (2.5, 2.5)) ∧
    ((Intersection.prepare_computations ⟨5.25, 2⟩ glassArena glassRay glassXs).map
        (fun c => (c.n1, c.n2)) = some (2.5, 1.5)) ∧
    ((Intersection.prepare_computations ⟨6, 0⟩ glassArena glassRay glassXs).map
        (fun c => (c.n1, c.n2)) = some (1.5, 1)) :=
  ⟨n1n2Go_stops a self post pre [] hpre, glass_pair_0, glass_pair_1,
    glass_pair_2, glass_pair_3, glass_pair_4, glass_pair_5⟩

/-- Witness for C3 at the first glass intersection: the walk with pre = []
evaluates to the pair (1, 1.5). -/
theorem prepare_computations_n1n2_witness :
    RT.n1n2 RT.glassArena ⟨2, 0⟩
      [⟨2, 0⟩, ⟨2.75, 1⟩, ⟨3.25, 2⟩, ⟨4.75, 1⟩, ⟨5.25, 2⟩, ⟨6, 0⟩] =
      some (1, 1.5) := by
  have h := (prepare_computations_n1n2 RT.glassArena ⟨2, 0⟩ []
    [⟨2.75, 1⟩, ⟨3.25, 2⟩, ⟨4.75, 1⟩, ⟨5.25, 2⟩, ⟨6, 0⟩] (by simp)).1
  simpa [RT.refrOfTop, RT.containersToggle, RT.glassArena, Arena.get?,
    RT.glassMaterial, RT.DEFAULT_MATERIAL, RT.Shape.material] using h

end ClaimC3

section ClaimC8

open RT RT.Matrix

/-- Exactly equal finite entries are approximately equal. -/
lemma approx_eq_of_eq {a b : ℝ} (h : a = b) : approx_eq a b := by
  simp [approx_eq, h, EPSILON]
  norm_num

/-- detN 4 reads only the 16 entries below the size. -/
lemma det4_congr (f g : ℕ → ℕ → ℝ) (h : ∀ r < 4, ∀ c < 4, f r c = g r c) :
    detN 4 f = detN 4 g := by
  norm_num [detN, subEntry, rangeFourEq, rangeThreeEq]
  rw [h 0 (by norm_num) 0 (by norm_num), h 0 (by norm_num) 1 (by norm_num),
    h 0 (by norm_num) 2 (by norm_num), h 0 (by norm_num) 3 (by norm_num),
    h 1 (by norm_num) 0 (by norm_num), h 1 (by norm_num) 1 (by norm_num),
    h 1 (by norm_num) 2 (by norm_num), h 1 (by norm_num) 3 (by norm_num),
    h 2 (by norm_num) 0 (by norm_num), h 2 (by norm_num) 1 (by norm_num),
    h 2 (by norm_num) 2 (by norm_num), h 2 (by norm_num) 3 (by norm_num),
    h 3 (by norm_num) 0 (by norm_num), h 3 (by norm_num) 1 (by norm_num),
    h 3 (by norm_num) 2 (by norm_num), h 3 (by norm_num) 3 (by norm_num)]

/-- detN 4 of an entrywise scaling. -/
lemma det4_smul (f : ℕ → ℕ → ℝ) (k : ℝ) :
    detN 4 (fun r c => f r c * k) = detN 4 f * k ^ 4 := by
  norm_num [detN, subEntry, rangeFourEq, rangeThreeEq]
  ring

/-- detN 4 is multiplicative over the row-by-column product. -/
lemma det4_mulF (f g : ℕ → ℕ → ℝ) :
    detN 4 (fun r c => f r 0 * g 0 c + f r 1 * g 1 c + f r 2 * g 2 c + f r 3 * g 3 c) =
      detN 4 f * detN 4 g := by
  norm_num [detN, subEntry, rangeFourEq, rangeThreeEq]
  ring

set_option maxHeartbeats 2000000 in
/-- Laplace expansion along a row, including the alien-cofactor case: the dot
product of row r with the cofactors of row c is the determinant when r = c
and zero otherwise. -/
lemma laplace_row (e : ℕ → ℕ → ℝ) (d : ℝ) (hdet : detN 4 e = d) :
    ∀ r < 4, ∀ c < 4,
      e r 0 * cofactorN 4 e c 0 + e r 1 * cofactorN 4 e c 1 +
        e r 2 * cofactorN 4 e c 2 + e r 3 * cofactorN 4 e c 3 =
      if r = c then d else 0 := by
  subst hdet
  intro r hr c hc
  interval_cases r <;> interval_cases c <;>
    norm_num [cofactorN, minorN, detN, subEntry, rangeFourEq, rangeThreeEq] <;>
    ring

/-- The determinant of the transposed cofactor function is the cube of the
determinant. -/
lemma det4_adjT (e : ℕ → ℕ → ℝ) (d : ℝ) (hd : d ≠ 0) (hdet : detN 4 e = d) :
    detN 4 (fun i j => cofactorN 4 e j i) = d ^ 3 := by
  have hm := det4_mulF e (fun i j => cofactorN 4 e j i)
  have hp : detN 4 (fun r c =>
        e r 0 * cofactorN 4 e c 0 + e r 1 * cofactorN 4 e c 1 +
          e r 2 * cofactorN 4 e c 2 + e r 3 * cofactorN 4 e c 3) =
      detN 4 (fun r c : ℕ => if r = c then d else 0) :=
    det4_congr _ _ (fun r hr c hc => laplace_row e d hdet r hr c hc)
  have hdiag : detN 4 (fun r c : ℕ => if r = c then d else 0) = d ^ 4 := by
    norm_num [detN, subEntry, rangeFourEq, rangeThreeEq]
    ring
  have hX : detN 4 e * detN 4 (fun i j => cofactorN 4 e j i) = d ^ 4 := by
    rw [← hm, hp, hdiag]
  rw [hdet] at hX
  exact mul_left_cancel₀ hd (hX.trans (by ring : d ^ 4 = d * d ^ 3))

/-- The determinant of the inverse's backing function is the reciprocal
determinant. -/
lemma det4_inv_data (e : ℕ → ℕ → ℝ) (d : ℝ) (hd : d ≠ 0) (hdet : detN 4 e = d) :
    detN 4 (fun i j => if i < 4 ∧ j < 4 then cofactorN 4 e j i / d else 0) = d⁻¹ := by
  have hc : detN 4 (fun i j : ℕ => if i < 4 ∧ j < 4 then cofactorN 4 e j i / d else 0) =
      detN 4 (fun i j => cofactorN 4 e j i * d⁻¹) := by
    apply det4_congr
    intro r hr c hc
    norm_num [hr, hc, div_eq_mul_inv]
  rw [hc, det4_smul, det4_adjT e d hd hdet]
  field_simp
  ring

/-- Each entry of the product of a matrix with its inverse is the identity
entry. -/
lemma mulInv_entry (e : ℕ → ℕ → ℝ) (d : ℝ) (hd : d ≠ 0) (hdet : detN 4 e = d) :
    ∀ r < 4, ∀ c < 4,
      (Matrix.mul ⟨4, e⟩
          ⟨4, fun i j => if i < 4 ∧ j < 4 then cofactorN 4 e j i / d else 0⟩).data r c =
        if r = c then (1 : ℝ) else 0 := by
  intro r hr c hc
  have hl := laplace_row e d hdet r hr c hc
  rcases eq_or_ne r c with rfl | hrc
  · rw [if_pos rfl] at hl ⊢
    norm_num [Matrix.mul, rangeFourEq, hr]
    field_simp
    linear_combination hl
  · rw [if_neg hrc] at hl ⊢
    norm_num [Matrix.mul, rangeFourEq, hr, hc]
    field_simp
    linear_combination hl

set_option maxHeartbeats 4000000 in
/-- Cofactor of the transposed-cofactor function: the second adjugate scales
the original entries by the squared determinant. -/
lemma adj_adj_entry (e : ℕ → ℕ → ℝ) :
    ∀ r < 4, ∀ c < 4,
      cofactorN 4 (fun i j => cofactorN 4 e j i) c r = detN 4 e ^ 2 * e r c := by
  intro r hr c hc
  interval_cases r <;> interval_cases c <;>
  · norm_num [cofactorN, minorN, detN, subEntry, rangeThreeEq, rangeFourEq]
    ring

/-- Cofactor of a gated, entrywise-scaled function. -/
lemma cof4_gated_scale (g : ℕ → ℕ → ℝ) (k : ℝ) :
    ∀ r < 4, ∀ c < 4,
      cofactorN 4 (fun i j => if i < 4 ∧ j < 4 then g i j * k else 0) c r =
        cofactorN 4 g c r * k ^ 3 := by
  intro r hr c hc
  interval_cases r <;> interval_cases c <;>
  · norm_num [cofactorN, minorN, detN, subEntry, rangeThreeEq]
    ring

/-- Each entry of the inverse of the inverse recovers the original entry. -/
lemma inv_inv_entry (e : ℕ → ℕ → ℝ) (d : ℝ) (hd : d ≠ 0) (hdet : detN 4 e = d) :
    ∀ r < 4, ∀ c < 4,
      cofactorN 4 (fun i j => if i < 4 ∧ j < 4 then cofactorN 4 e j i / d else 0) c r / d⁻¹ =
        e r c := by
  intro r hr c hc
  have h1 : (fun i j : ℕ => if i < 4 ∧ j < 4 then cofactorN 4 e j i / d else 0) =
      (fun i j : ℕ => if i < 4 ∧ j < 4 then (fun a b => cofactorN 4 e b a) i j * d⁻¹ else 0) := by
    funext i j
    by_cases hij : i < 4 ∧ j < 4 <;> simp [hij, div_eq_mul_inv]
  rw [h1, cof4_gated_scale (fun a b => cofactorN 4 e b a) d⁻¹ r hr c hc,
    adj_adj_entry e r hr c hc, hdet]
  field_simp
  ring

/-- C8: Matrix::inverse returns none exactly when the determinant is zero,
and for every invertible 4 by 4 matrix M the round-trips hold under the
implemented approximate equality: M * inverse(M) equals the identity and
inverse(inverse(M)) equals M (entrywise within 1e-5; the entries are in fact
exactly equal). -/
theorem matrix_inverse_roundtrip (m : Matrix) (hsz : m.size = 4) :
    (m.inverse = none ↔ m.determinant = 0) ∧
    (m.determinant ≠ 0 →
      ∃ minv minv2, m.inverse = some minv ∧ minv.inverse = some minv2 ∧
        Matrix.matrixEq (m.mul minv) Matrix.IDENTITY_MATRIX ∧
        Matrix.matrixEq minv2 m) := by
  obtain ⟨sz, e⟩ := m
  have hsz4 : sz = 4 := hsz
  subst hsz4
  constructor
  · rcases eq_or_ne (Matrix.determinant ⟨4, e⟩) 0 with h0 | h0
    · simp [Matrix.inverse, if_pos h0, h0]
    · simp [Matrix.inverse, if_neg h0, h0]
  · intro hd0
    refine ⟨⟨4, fun i j => if i < 4 ∧ j < 4 then
        Matrix.cofactorN 4 e j i / Matrix.detN 4 e else 0⟩,
      ⟨4, fun i j => if i < 4 ∧ j < 4 then
        Matrix.cofactorN 4 (fun a b => if a < 4 ∧ b < 4 then
          Matrix.cofactorN 4 e b a / Matrix.detN 4 e else 0) j i /
            (Matrix.detN 4 e)⁻¹ else 0⟩,
      ?_, ?_, ?_, ?_⟩
    · simp only [Matrix.inverse, if_neg hd0]
      rfl
    · have hdm : Matrix.determinant ⟨4, fun i j => if i < 4 ∧ j < 4 then
          Matrix.cofactorN 4 e j i / Matrix.detN 4 e else 0⟩ =
          (Matrix.detN 4 e)⁻¹ :=
        det4_inv_data e (Matrix.detN 4 e) hd0 rfl
      have hne : Matrix.determinant ⟨4, fun i j => if i < 4 ∧ j < 4 then
          Matrix.cofactorN 4 e j i / Matrix.detN 4 e else 0⟩ ≠ 0 := by
        rw [hdm]
        exact inv_ne_zero hd0
      simp only [Matrix.inverse, if_neg hne]
      rw [hdm]
    · refine ⟨rfl, ?_⟩
      intro r hr c hc
      refine approx_eq_of_eq ?_
      rw [mulInv_entry e (Matrix.detN 4 e) hd0 rfl r hr c hc]
      simp [Matrix.IDENTITY_MATRIX]
    · refine ⟨rfl, ?_⟩
      intro r hr c hc
      refine approx_eq_of_eq ?_
      have h := inv_inv_entry e (Matrix.detN 4 e) hd0 rfl r hr c hc
      simpa [hr, hc] using h

/-- Witness for C8 at the determinant-532 test matrix of matrix.rs: the
inverse exists, its inverse exists, and both round-trips hold. -/
theorem matrix_inverse_roundtrip_witness :
    RT.Matrix.determinant RT.roundtripM = 532 ∧
    (∃ minv minv2, RT.roundtripM.inverse = some minv ∧
      minv.inverse = some minv2 ∧
      RT.Matrix.matrixEq (RT.roundtripM.mul minv) RT.Matrix.IDENTITY_MATRIX ∧
      RT.Matrix.matrixEq minv2 RT.roundtripM) := by
  have hdet : RT.Matrix.determinant RT.roundtripM = 532 := by
    norm_num [RT.Matrix.determinant, RT.roundtripM, RT.Matrix.detN,
      RT.Matrix.subEntry, rangeFourEq, rangeThreeEq, List.getD]
  exact ⟨hdet, (matrix_inverse_roundtrip RT.roundtripM rfl).2 (by rw [hdet]; norm_num)⟩

end ClaimC8

section ClaimC1

open RT

/-- Intersections of the initial upward ray with the two-planes world. -/
lemma intersect_up0 :
    World.intersect twoPlanesWorld twoPlanesRay = some [⟨-1, 0⟩, ⟨1, 1⟩] := by
  norm_num [World.intersect, World.intersectGo, twoPlanesWorld, twoPlanesRay,
    lowerPlane, upperPlane, Arena.get?, Shape.intersect, Shape.transform,
    Shape.local_intersect, planeLocalIntersect, inverse_translation,
    translationInv_mulTuple, Ray.mulMatrix, Tuple.point, Tuple.vector,
    EPSILON, Intersection.sort, Intersection.insertByT]

/-- Intersections of the downward bounce ray with the two-planes world. -/
lemma intersect_down :
    World.intersect twoPlanesWorld ⟨⟨0, 99999 / 100000, 0, 1⟩, ⟨0, -1, 0, 0⟩⟩ =
      some [⟨-(1 / 100000), 1⟩, ⟨199999 / 100000, 0⟩] := by
  norm_num [World.intersect, World.intersectGo, twoPlanesWorld,
    lowerPlane, upperPlane, Arena.get?, Shape.intersect, Shape.transform,
    Shape.local_intersect, planeLocalIntersect, inverse_translation,
    translationInv_mulTuple, Ray.mulMatrix, Tuple.point, Tuple.vector,
    EPSILON, Intersection.sort, Intersection.insertByT]

/-- Intersections of the upward bounce ray with the two-planes world. -/
lemma intersect_up :
    World.intersect twoPlanesWorld ⟨⟨0, -(99999 / 100000), 0, 1⟩, ⟨0, 1, 0, 0⟩⟩ =
      some [⟨-(1 / 100000), 0⟩, ⟨199999 / 100000, 1⟩] := by
  norm_num [World.intersect, World.intersectGo, twoPlanesWorld,
    lowerPlane, upperPlane, Arena.get?, Shape.intersect, Shape.transform,
    Shape.local_intersect, planeLocalIntersect, inverse_translation,
    translationInv_mulTuple, Ray.mulMatrix, Tuple.point, Tuple.vector,
    EPSILON, Intersection.sort, Intersection.insertByT]

/-- The light of the two-planes world. -/
lemma twoPlanes_light : twoPlanesWorld.light = ⟨Tuple.point 0 0 0, Color.WHITE⟩ := rfl

/-- The reflective coefficient of the planes. -/
lemma upperPlane_reflective : upperPlane.material.reflective = 1 := rfl

/-- The transparency of the planes. -/
lemma upperPlane_transparency : upperPlane.material.transparency = 0 := rfl

/-- The reflective coefficient of the lower plane. -/
lemma lowerPlane_reflective : lowerPlane.material.reflective = 1 := rfl

/-- The transparency of the lower plane. -/
lemma lowerPlane_transparency : lowerPlane.material.transparency = 0 := rfl

/-- The square root of the squared shadow distance. -/
lemma sqrt_shadow : Real.sqrt (9999800001 / 10000000000) = 99999 / 100000 := by
  rw [show (9999800001 / 10000000000 : ℝ) = (99999 / 100000) ^ 2 by norm_num]
  exact Real.sqrt_sq (by norm_num)

/-- The square root of the numerator of the squared shadow distance. -/
lemma sqrt_shadow_num : Real.sqrt 9999800001 = 99999 := by
  rw [show (9999800001 : ℝ) = 99999 ^ 2 by norm_num]
  exact Real.sqrt_sq (by norm_num)

/-- The square root of the denominator of the squared shadow distance. -/
lemma sqrt_shadow_den : Real.sqrt 10000000000 = 100000 := by
  rw [show (10000000000 : ℝ) = 100000 ^ 2 by norm_num]
  exact Real.sqrt_sq (by norm_num)

/-- The over point under the upper plane is lit. -/
lemma shadow_up :
    World.is_shadowed twoPlanesWorld ⟨0, 99999 / 100000, 0, 1⟩ = some false := by
  norm_num [World.is_shadowed, twoPlanes_light, intersect_down, List.find?,
    Tuple.sub, Tuple.point, Tuple.normalize, Tuple.magnitude, sqrt_shadow, sqrt_shadow_num, sqrt_shadow_den]

/-- The over point above the lower plane is lit. -/
lemma shadow_down :
    World.is_shadowed twoPlanesWorld ⟨0, -(99999 / 100000), 0, 1⟩ = some false := by
  norm_num [World.is_shadowed, twoPlanes_light, intersect_up, List.find?,
    Tuple.sub, Tuple.point, Tuple.normalize, Tuple.magnitude, sqrt_shadow, sqrt_shadow_num, sqrt_shadow_den]

/-- Surface color at the upper plane: ambient 0.1 plus diffuse 0.9 plus
specular 0.9 of the white light. -/
lemma surface_up :
    Material.lightning upperPlane.material upperPlane twoPlanesWorld.light
      ⟨0, 99999 / 100000, 0, 1⟩ ⟨0, -1, 0, 0⟩ ⟨0, -1, 0, 0⟩ false =
      ⟨19 / 10, 19 / 10, 19 / 10⟩ := by
  norm_num [Material.lightning, upperPlane, reflectiveMaterial, DEFAULT_MATERIAL,
    twoPlanes_light, Shape.material, Pattern.color_at_object,
    Color.WHITE, Color.mulC, Color.smul, Color.add, Color.BLACK,
    Tuple.sub, Tuple.point, Tuple.normalize, Tuple.magnitude, Tuple.neg,
    Tuple.reflect, Tuple.smul, Tuple.dot, sqrt_shadow, sqrt_shadow_num, sqrt_shadow_den, Real.one_rpow]

/-- Surface color at the lower plane. -/
lemma surface_down :
    Material.lightning lowerPlane.material lowerPlane twoPlanesWorld.light
      ⟨0, -(99999 / 100000), 0, 1⟩ ⟨0, 1, 0, 0⟩ ⟨0, 1, 0, 0⟩ false =
      ⟨19 / 10, 19 / 10, 19 / 10⟩ := by
  norm_num [Material.lightning, lowerPlane, reflectiveMaterial, DEFAULT_MATERIAL,
    twoPlanes_light, Shape.material, Pattern.color_at_object,
    Color.WHITE, Color.mulC, Color.smul, Color.add, Color.BLACK,
    Tuple.sub, Tuple.point, Tuple.normalize, Tuple.magnitude, Tuple.neg,
    Tuple.reflect, Tuple.smul, Tuple.dot, sqrt_shadow, sqrt_shadow_num, sqrt_shadow_den, Real.one_rpow]

/-- PreparedComputations of the initial upward ray at its hit on the upper
plane. -/
lemma prep_up0 :
    Intersection.prepare_computations ⟨1, 1⟩ twoPlanesWorld.arena twoPlanesRay
      [⟨-1, 0⟩, ⟨1, 1⟩] = some compsUp0Val := by
  norm_num [Intersection.prepare_computations, twoPlanesWorld, twoPlanesRay,
    Arena.get?, lowerPlane, upperPlane, reflectiveMaterial, DEFAULT_MATERIAL,
    Shape.normal_at, Shape.world_to_object, Shape.normal_to_world,
    Shape.get_parent, Shape.parentId, Shape.local_normal_at, planeLocalNormalAt,
    Shape.transform, Shape.material, inverse_translation, translationInv_mulTuple,
    translationInv_transpose_mulTuple, Tuple.point, Tuple.vector, Tuple.add,
    Tuple.sub, Tuple.neg, Tuple.smul, Tuple.dot, Tuple.normalize, Tuple.magnitude,
    Tuple.reflect, Ray.position, n1n2, n1n2Go, refrOfTop, containersToggle,
    EPSILON, Real.sqrt_one, compsUp0Val]

/-- PreparedComputations of the upward bounce ray at its hit on the upper
plane. -/
lemma prep_up :
    Intersection.prepare_computations ⟨199999 / 100000, 1⟩ twoPlanesWorld.arena
      ⟨⟨0, -(99999 / 100000), 0, 1⟩, ⟨0, 1, 0, 0⟩⟩
      [⟨-(1 / 100000), 0⟩, ⟨199999 / 100000, 1⟩] = some compsUpVal := by
  norm_num [Intersection.prepare_computations, twoPlanesWorld, twoPlanesRay,
    Arena.get?, lowerPlane, upperPlane, reflectiveMaterial, DEFAULT_MATERIAL,
    Shape.normal_at, Shape.world_to_object, Shape.normal_to_world,
    Shape.get_parent, Shape.parentId, Shape.local_normal_at, planeLocalNormalAt,
    Shape.transform, Shape.material, inverse_translation, translationInv_mulTuple,
    translationInv_transpose_mulTuple, Tuple.point, Tuple.vector, Tuple.add,
    Tuple.sub, Tuple.neg, Tuple.smul, Tuple.dot, Tuple.normalize, Tuple.magnitude,
    Tuple.reflect, Ray.position, n1n2, n1n2Go, refrOfTop, containersToggle,
    EPSILON, Real.sqrt_one, compsUpVal]

/-- PreparedComputations of the downward bounce ray at its hit on the lower
plane. -/
lemma prep_down :
    Intersection.prepare_computations ⟨199999 / 100000, 0⟩ twoPlanesWorld.arena
      ⟨⟨0, 99999 / 100000, 0, 1⟩, ⟨0, -1, 0, 0⟩⟩
      [⟨-(1 / 100000), 1⟩, ⟨199999 / 100000, 0⟩] = some compsDownVal := by
  norm_num [Intersection.prepare_computations, twoPlanesWorld, twoPlanesRay,
    Arena.get?, lowerPlane, upperPlane, reflectiveMaterial, DEFAULT_MATERIAL,
    Shape.normal_at, Shape.world_to_object, Shape.normal_to_world,
    Shape.get_parent, Shape.parentId, Shape.local_normal_at, planeLocalNormalAt,
    Shape.transform, Shape.material, inverse_translation, translationInv_mulTuple,
    translationInv_transpose_mulTuple, Tuple.point, Tuple.vector, Tuple.add,
    Tuple.sub, Tuple.neg, Tuple.smul, Tuple.dot, Tuple.normalize, Tuple.magnitude,
    Tuple.reflect, Ray.position, n1n2, n1n2Go, refrOfTop, containersToggle,
    EPSILON, Real.sqrt_one, compsDownVal]

/-- One unfolding of color_at_internal on the initial upward ray. -/
lemma colorUp0_eq (n : ℕ) :
    World.color_at_internal twoPlanesWorld twoPlanesRay n =
      World.shade_hit twoPlanesWorld compsUp0Val n := by
  rw [World.color_at_internal, intersect_up0]
  norm_num [List.find?]
  rw [prep_up0]
  rfl

/-- One unfolding of color_at_internal on the upward bounce ray. -/
lemma colorUp_eq (n : ℕ) :
    World.color_at_internal twoPlanesWorld ⟨⟨0, -(99999 / 100000), 0, 1⟩, ⟨0, 1, 0, 0⟩⟩ n =
      World.shade_hit twoPlanesWorld compsUpVal n := by
  rw [World.color_at_internal, intersect_up]
  norm_num [List.find?]
  rw [prep_up]
  rfl

/-- One unfolding of color_at_internal on the downward bounce ray. -/
lemma colorDown_eq (n : ℕ) :
    World.color_at_internal twoPlanesWorld ⟨⟨0, 99999 / 100000, 0, 1⟩, ⟨0, -1, 0, 0⟩⟩ n =
      World.shade_hit twoPlanesWorld compsDownVal n := by
  rw [World.color_at_internal, intersect_down]
  norm_num [List.find?]
  rw [prep_down]
  rfl

/-- Shade of an upper-plane hit with exhausted budget: the surface color
only (both recursive traces are cut off at remaining = 0). -/
lemma shadeUp_zero (t : ℝ) (p u : Tuple) (ins : Bool) (n1 n2 : ℝ) :
    World.shade_hit twoPlanesWorld
      ⟨t, upperPlane, p, u, ⟨0, 99999 / 100000, 0, 1⟩, ⟨0, -1, 0, 0⟩,
       ⟨0, -1, 0, 0⟩, ins, ⟨0, -1, 0, 0⟩, n1, n2⟩ 0 =
      some ⟨19 / 10, 19 / 10, 19 / 10⟩ := by
  norm_num [World.shade_hit, shadow_up, surface_up, World.reflected_color,
    World.refracted_color, upperPlane_reflective, upperPlane_transparency,
    Color.add, Color.smul, Color.BLACK]

/-- Shade of an upper-plane hit with remaining budget: the surface color plus
the color of the downward reflection traced with one unit less. -/
lemma shadeUp_succ (t : ℝ) (p u : Tuple) (ins : Bool) (n1 n2 : ℝ) (k : ℕ) (c : Color)
    (hc : World.color_at_internal twoPlanesWorld
      ⟨⟨0, 99999 / 100000, 0, 1⟩, ⟨0, -1, 0, 0⟩⟩ k = some c) :
    World.shade_hit twoPlanesWorld
      ⟨t, upperPlane, p, u, ⟨0, 99999 / 100000, 0, 1⟩, ⟨0, -1, 0, 0⟩,
       ⟨0, -1, 0, 0⟩, ins, ⟨0, -1, 0, 0⟩, n1, n2⟩ (k + 1) =
      some ⟨19 / 10 + c.r, 19 / 10 + c.g, 19 / 10 + c.b⟩ := by
  norm_num [World.shade_hit, shadow_up, surface_up, World.reflected_color,
    World.refracted_color, upperPlane_reflective, upperPlane_transparency,
    hc, Color.add, Color.smul, Color.BLACK]

/-- Shade of a lower-plane hit with exhausted budget. -/
lemma shadeDown_zero (t : ℝ) (p u : Tuple) (ins : Bool) (n1 n2 : ℝ) :
    World.shade_hit twoPlanesWorld
      ⟨t, lowerPlane, p, u, ⟨0, -(99999 / 100000), 0, 1⟩, ⟨0, 1, 0, 0⟩,
       ⟨0, 1, 0, 0⟩, ins, ⟨0, 1, 0, 0⟩, n1, n2⟩ 0 =
      some ⟨19 / 10, 19 / 10, 19 / 10⟩ := by
  norm_num [World.shade_hit, shadow_down, surface_down, World.reflected_color,
    World.refracted_color, lowerPlane_reflective, lowerPlane_transparency,
    Color.add, Color.smul, Color.BLACK]

/-- Shade of a lower-plane hit with remaining budget: the surface color plus
the color of the upward reflection traced with one unit less. -/
lemma shadeDown_succ (t : ℝ) (p u : Tuple) (ins : Bool) (n1 n2 : ℝ) (k : ℕ) (c : Color)
    (hc : World.color_at_internal twoPlanesWorld
      ⟨⟨0, -(99999 / 100000), 0, 1⟩, ⟨0, 1, 0, 0⟩⟩ k = some c) :
    World.shade_hit twoPlanesWorld
      ⟨t, lowerPlane, p, u, ⟨0, -(99999 / 100000), 0, 1⟩, ⟨0, 1, 0, 0⟩,
       ⟨0, 1, 0, 0⟩, ins, ⟨0, 1, 0, 0⟩, n1, n2⟩ (k + 1) =
      some ⟨19 / 10 + c.r, 19 / 10 + c.g, 19 / 10 + c.b⟩ := by
  norm_num [World.shade_hit, shadow_down, surface_down, World.reflected_color,
    World.refracted_color, lowerPlane_reflective, lowerPlane_transparency,
    hc, Color.add, Color.smul, Color.BLACK]

/-- Colors of the two alternating bounce rays at every budget: each budget
unit adds one surface contribution of 1.9 per channel. -/
lemma bounce_pair (k : ℕ) :
    (World.color_at_internal twoPlanesWorld
        ⟨⟨0, 99999 / 100000, 0, 1⟩, ⟨0, -1, 0, 0⟩⟩ k =
      some ⟨19 / 10 * (k + 1), 19 / 10 * (k + 1), 19 / 10 * (k + 1)⟩) ∧
    (World.color_at_internal twoPlanesWorld
        ⟨⟨0, -(99999 / 100000), 0, 1⟩, ⟨0, 1, 0, 0⟩⟩ k =
      some ⟨19 / 10 * (k + 1), 19 / 10 * (k + 1), 19 / 10 * (k + 1)⟩) := by
  induction k with
  | zero =>
      constructor
      · rw [colorDown_eq]
        simp only [compsDownVal]
        rw [shadeDown_zero]
        norm_num
      · rw [colorUp_eq]
        simp only [compsUpVal]
        rw [shadeUp_zero]
        norm_num
  | succ k ih =>
      obtain ⟨ihD, ihU⟩ := ih
      constructor
      · rw [colorDown_eq]
        simp only [compsDownVal]
        rw [shadeDown_succ _ _ _ _ _ _ _ _ ihU]
        simp only [Option.some.injEq, Color.mk.injEq]
        push_cast
        refine ⟨by ring, by ring, by ring⟩
      · rw [colorUp_eq]
        simp only [compsUpVal]
        rw [shadeUp_succ _ _ _ _ _ _ _ _ ihD]
        simp only [Option.some.injEq, Color.mk.injEq]
        push_cast
        refine ⟨by ring, by ring, by ring⟩

/-- C1: the recursion budget of the shading pipeline is checked before any
further trace and strictly decreases on each reflection or refraction trace:
the default depth MAX_REFLECTION_RECURSION is 5, both reflected_color and
refracted_color return black outright at remaining = 0 for every world and
every prepared state, and on the mutually reflective two-planes scene (both
planes reflective 1.0) color_at returns the finite color (11.4, 11.4, 11.4)
instead of recursing unboundedly. -/
theorem color_at_recursion_bounded :
    MAX_REFLECTION_RECURSION = 5 ∧
    (∀ (w : World) (comps : PreparedComputations),
      World.reflected_color w comps 0 = some Color.BLACK) ∧
    (∀ (w : World) (comps : PreparedComputations),
      World.refracted_color w comps 0 = some Color.BLACK) ∧
    World.color_at twoPlanesWorld twoPlanesRay = some ⟨57 / 5, 57 / 5, 57 / 5⟩ := by
  refine ⟨rfl, fun w comps => by simp [World.reflected_color],
    fun w comps => by simp [World.refracted_color], ?_⟩
  rw [World.color_at, show MAX_REFLECTION_RECURSION = 4 + 1 from rfl, colorUp0_eq]
  simp only [compsUp0Val]
  rw [shadeUp_succ _ _ _ _ _ _ _ _ (bounce_pair 4).1]
  norm_num

end ClaimC1
